import Mathlib

/-!
Shallow embedding of the ztier allocator (`mm/ztier.c`), the "Tiered
Compressed-Page Store" of the specification.

Modelling conventions:

* Addresses, handles and byte values are `ℕ`.
* A host page is identified by its base address (the C masks a handle with
  `PAGE_MASK`; on naturals this is `handle / 4096 * 4096`, identical for the
  power-of-two page size).
* The per-page side metadata word `page->ztier_private` is used by the source
  only through the two views `ztier_private & TIER_MASK` (the tier) and
  `ztier_private & RECLAIM_FLAG` (bit 63).  We model it as the record
  `PagePrivate` with those two fields; the poison value `0xDEADBEEF` written
  to unowned pages has bit 63 clear, so it is `⟨0xDEADBEEF, false⟩`.
* The rb-trees (`free_lists[*]`, `under_reclaim`) are ordered sets of
  `ztier_chunk` node pointers, where a node lives at `handle + 8`
  (`chunk_struct` / `SIZE_OF_ZSWPHDR`).  We model each tree as the
  `Finset ℕ` of the corresponding *handles* (chunk addresses); the `+ 8`
  translation is monotone, so minima, membership, and the page-range
  selections of `ztier_rb_move_range` coincide (range bounds in the source
  differ by at most 8 between call sites, which never changes the selected
  set of in-page, class-aligned nodes).
* Byte memory is `Mem := ℕ → ℕ`; `memset`/`readU32` model the source's
  fill patterns and its little-endian 4-byte sanity reads.
* `BUG()` / `BUG_ON(...)` aborts are modelled by `Except ZtierBug`, value
  `.error .bug`.  The rb-tree *structural* pointer checks inside
  `ztier_rb_insert` (left/right link sanity) concern the physical tree layout
  and have no counterpart on sets; the value checks it performs (null/low
  pointer, duplicate key, `0xAAAAAAAA`/`0xCCCCCCCC` fill of the inserted
  chunk) are modelled at each call site that the claims reference.
* The user eviction callback is an external collaborator.  Modelled from the
  spec (§6.1 `ops.evict`): on success (`0`) it has called
  `ztier_free(pool, handle)` on exactly that handle before returning, on
  failure (non-zero) it has not touched the chunk.  It is represented by an
  oracle `ℕ → Bool` giving the success/failure verdict per handle, with the
  successful case performing the `ztier_free` (which, the page's reclaim
  flag being set, lands in `under_reclaim`).
* `page_alloc` is an external collaborator: `ztier_alloc` receives its answer
  as an `Option ℕ` (fresh page base or allocation failure).
-/

namespace Ztier

/-- `PAGE_SIZE` of the kernel configuration the source is written against. -/
def PAGE_SIZE : ℕ := 4096

/-- `NUM_TIERS` from `enum TIERS`. -/
def NUM_TIERS : ℕ := 3

/-- `TIER_SIZES`: 2KB, 1KB, 256B (strictly decreasing, each divides 4096). -/
def TIER_SIZES : ℕ → ℕ
  | 0 => 2048
  | 1 => 1024
  | _ => 256

/-- `SIZE_OF_ZSWPHDR = sizeof(swp_entry_t)` — the handle-to-node offset. -/
def SIZE_OF_ZSWPHDR : ℕ := 8

/-- The two views of the `ztier_private` side-metadata word of a host page:
`tier = ztier_private & TIER_MASK` and `reclaimFlag = ztier_private & RECLAIM_FLAG`
(bit 63). -/
structure PagePrivate where
  tier : ℕ
  reclaimFlag : Bool
deriving DecidableEq, Repr

/-- The poison value `0xDEADBEEF` stored in `ztier_private` while a page is not
owned by the pool (bit 63 of `0xDEADBEEF` is clear). -/
def PRIV_POISON : PagePrivate := ⟨0xDEADBEEF, false⟩

/-- Byte memory. -/
def Mem : Type := ℕ → ℕ

/-- `handle & PAGE_MASK`: base address of the host page containing `handle`. -/
def pageBase (handle : ℕ) : ℕ := handle / PAGE_SIZE * PAGE_SIZE

/-- `memset(a, v, n)` on the byte memory. -/
def memset (m : Mem) (a n v : ℕ) : Mem :=
  fun x => if a ≤ x ∧ x < a + n then v else m x

/-- Little-endian read of `*(unsigned int *)a` (the source's fill-pattern
sanity reads). -/
def readU32 (m : Mem) (a : ℕ) : ℕ :=
  m a % 256 + m (a + 1) % 256 * 256 + m (a + 2) % 256 * 65536 +
    m (a + 3) % 256 * 16777216

/-- A `BUG()` / `BUG_ON` abort. -/
inductive ZtierBug
  | bug
deriving DecidableEq, Repr

/-- `struct ztier_pool`.  `free_lists` and `used_pages` are indexed by tier;
`hasEvict` models `pool->ops && pool->ops->evict`; `pagePriv` is the side
metadata (`page->ztier_private`) of every host page, indexed by page base
address. -/
structure ZtierPool where
  free_lists : ℕ → Finset ℕ
  used_pages : ℕ → List ℕ
  under_reclaim : Finset ℕ
  size : ℕ
  hasEvict : Bool
  pagePriv : ℕ → PagePrivate

/-- `ztier_create_pool`: everything empty, `size = 0`; every page unowned. -/
def ztier_create_pool (ops : Bool) : ZtierPool :=
  { free_lists := fun _ => ∅
    used_pages := fun _ => []
    under_reclaim := ∅
    size := 0
    hasEvict := ops
    pagePriv := fun _ => PRIV_POISON }

/-- `ztier_rb_move_range(from, to, start, after)`: move every element in
`[start, after)` from `from` to `to`; the first component is the new `from`,
the second the new `to` (pass `∅` and drop the second component for the
`to == NULL` discard form). -/
def ztier_rb_move_range (src dst : Finset ℕ) (start after : ℕ) :
    Finset ℕ × Finset ℕ :=
  (src.filter (fun x => ¬(start ≤ x ∧ x < after)),
   dst ∪ src.filter (fun x => start ≤ x ∧ x < after))

/-- The chunk addresses a host page at `b` is carved into for a tier
(`for (i = 0; i < PAGE_SIZE; i += TIER_SIZES[tier])` in `ztier_init_page`,
expressed with chunk indices). -/
def pageChunks (b tier : ℕ) : Finset ℕ :=
  (Finset.range (PAGE_SIZE / TIER_SIZES tier)).image
    (fun i => b + i * TIER_SIZES tier)

/-- `ztier_init_page`: record the tier (clearing the reclaim flag), link the
page at the head of `used_pages[tier]`, fill the page with `0xCC`, and insert
every chunk into `free_lists[tier]`.  The `BUG_ON`s: null page address, bad
tier, page not carrying the `0xDEADBEEF` poison. -/
def ztier_init_page (pool : ZtierPool) (mem : Mem) (b tier : ℕ) :
    Except ZtierBug (ZtierPool × Mem) :=
  if b = 0 then .error .bug
  else if NUM_TIERS ≤ tier then .error .bug
  else if pool.pagePriv b ≠ PRIV_POISON then .error .bug
  else .ok
    ({ pool with
        pagePriv := Function.update pool.pagePriv b ⟨tier, false⟩
        used_pages :=
          Function.update pool.used_pages tier (b :: pool.used_pages tier)
        free_lists :=
          Function.update pool.free_lists tier
            (pool.free_lists tier ∪ pageChunks b tier) },
     memset mem b PAGE_SIZE 0xCC)

/-- `ztier_all_tiers_empty`. -/
def ztier_all_tiers_empty (pool : ZtierPool) : Bool :=
  (List.range NUM_TIERS).all fun t => (pool.used_pages t).isEmpty

/-- The tier selection loop of `ztier_alloc`:
`for (tier = NUM_TIERS - 1; tier >= 0; tier--) if (size <= TIER_SIZES[tier]) break;`
— the smallest tier size that still fits `size` (tiers are decreasing in
size, so the walk starts at the smallest). -/
def chooseTier (size : ℕ) : ℕ :=
  if size ≤ TIER_SIZES 2 then 2
  else if size ≤ TIER_SIZES 1 then 1
  else 0

/-- Result of `ztier_alloc` (`0` with the handle, `-EINVAL`, `-ENOSPC`,
`-ENOMEM`, or a `BUG` abort). -/
inductive AllocRes
  | ok (handle : ℕ)
  | einval
  | enospc
  | enomem
  | bug
deriving DecidableEq, Repr

/-- `ztier_alloc(pool, size, gfp, &handle)`.  `gfpHighmem` models
`gfp & __GFP_HIGHMEM`; `pageAlloc` is the page-frame allocator's answer
(consulted only when the chosen free list is empty).  On success the lowest
free chunk (`rb_first`) is removed and the chunk is filled with `0xBB`. -/
def ztier_alloc (pool : ZtierPool) (mem : Mem) (size : ℕ) (gfpHighmem : Bool)
    (pageAlloc : Option ℕ) : AllocRes × ZtierPool × Mem :=
  if size = 0 ∨ gfpHighmem then (.einval, pool, mem)
  else if TIER_SIZES 0 < size then (.enospc, pool, mem)
  else if h : (pool.free_lists (chooseTier size)).Nonempty then
    (.ok ((pool.free_lists (chooseTier size)).min' h),
     { pool with
        free_lists :=
          Function.update pool.free_lists (chooseTier size)
            ((pool.free_lists (chooseTier size)).erase
              ((pool.free_lists (chooseTier size)).min' h)) },
     memset mem ((pool.free_lists (chooseTier size)).min' h)
       (TIER_SIZES (chooseTier size)) 0xBB)
  else
    match pageAlloc with
    | none => (.enomem, pool, mem)
    | some b =>
      match ztier_init_page pool mem b (chooseTier size) with
      | .error _ => (.bug, pool, mem)
      | .ok (pool1, mem1) =>
        if h2 : (pool1.free_lists (chooseTier size)).Nonempty then
          (.ok ((pool1.free_lists (chooseTier size)).min' h2),
           { pool1 with
              size := pool1.size + PAGE_SIZE
              free_lists :=
                Function.update pool1.free_lists (chooseTier size)
                  ((pool1.free_lists (chooseTier size)).erase
                    ((pool1.free_lists (chooseTier size)).min' h2)) },
           memset mem1 ((pool1.free_lists (chooseTier size)).min' h2)
             (TIER_SIZES (chooseTier size)) 0xBB)
        else (.bug, { pool1 with size := pool1.size + PAGE_SIZE }, mem1)

/-- `ztier_free(pool, handle)`.  Reads `tier` and the reclaim flag from the
handle's page metadata, asserts (`BUG_ON`) a non-null handle, class
alignment, and a sane tier, fills the chunk with `0xAA`, and inserts the
chunk into `under_reclaim` (flag set) or `free_lists[tier]` (flag clear).
The insertion carries `ztier_rb_insert`'s own asserts: low node pointer
(`handle + 8 < 0x1000`), fill-pattern check of the inserted chunk, and
duplicate key.  It touches neither `size` nor `used_pages` nor any page
metadata, and never hands a page back to the page-frame allocator.  The
memory returned is the chunk state at insertion time; the source afterwards
writes the rb-tree node fields inside `[handle + 8, handle + 32)`
(`RB_CLEAR_NODE` / `rb_link_node`), which stays inside the chunk. -/
def ztier_free (pool : ZtierPool) (mem : Mem) (handle : ℕ) :
    Except ZtierBug (ZtierPool × Mem) :=
  if handle = 0 then .error .bug
  else if handle % TIER_SIZES (pool.pagePriv (pageBase handle)).tier ≠ 0 then
    .error .bug
  else if NUM_TIERS ≤ (pool.pagePriv (pageBase handle)).tier then .error .bug
  else if handle + SIZE_OF_ZSWPHDR < 0x1000 then .error .bug
  else if
      readU32
          (memset mem handle
            (TIER_SIZES (pool.pagePriv (pageBase handle)).tier) 0xAA) handle ≠
        0xAAAAAAAA ∧
      readU32
          (memset mem handle
            (TIER_SIZES (pool.pagePriv (pageBase handle)).tier) 0xAA) handle ≠
        0xCCCCCCCC then
    .error .bug
  else if (pool.pagePriv (pageBase handle)).reclaimFlag then
    if handle ∈ pool.under_reclaim then .error .bug
    else
      .ok ({ pool with under_reclaim := insert handle pool.under_reclaim },
        memset mem handle (TIER_SIZES (pool.pagePriv (pageBase handle)).tier)
          0xAA)
  else if handle ∈ pool.free_lists (pool.pagePriv (pageBase handle)).tier then
    .error .bug
  else
    .ok
      ({ pool with
          free_lists :=
            Function.update pool.free_lists
              (pool.pagePriv (pageBase handle)).tier
              (insert handle
                (pool.free_lists (pool.pagePriv (pageBase handle)).tier)) },
       memset mem handle (TIER_SIZES (pool.pagePriv (pageBase handle)).tier)
         0xAA)

/-- Linux `list_rotate_left`: move the first list entry to the tail. -/
def rotateLeft : List ℕ → List ℕ
  | [] => []
  | x :: xs => xs ++ [x]

/-- Outcome of `ztier_reclaim_select_page`:
`nothing` models the `return NULL` paths, `found` the chosen victim together
with the pool after the candidate rotation, and `stuck` the `continue` branch
taken when the tail page already carries the reclaim flag — with the list and
the flag unchanged the `while` loop of the source re-reads the same tail
forever, so this branch never terminates. -/
inductive SelectOut
  | stuck
  | nothing (ct : ℕ)
  | found (page : ℕ) (pool : ZtierPool)

/-- `ztier_reclaim_select_page(pool, &current_tier, &current_page)`.
With `current_tier` in range: an empty `used_pages[current_tier]` advances
the tier and returns NULL; otherwise the tail (`list_last_entry`) is
examined — reclaim-flagged: `continue` (see `SelectOut.stuck`); equal to the
previously chosen page: advance the tier and return NULL; else record it,
rotate the list left, and return it.  Past the last tier: return NULL. -/
def ztier_reclaim_select_page (pool : ZtierPool) (ct : ℕ) (cp : Option ℕ) :
    SelectOut :=
  if ct < NUM_TIERS then
    match (pool.used_pages ct).getLast? with
    | none => .nothing (ct + 1)
    | some chosen =>
      if (pool.pagePriv chosen).reclaimFlag then .stuck
      else if cp = some chosen then .nothing (ct + 1)
      else
        .found chosen
          { pool with
              used_pages :=
                Function.update pool.used_pages ct
                  (rotateLeft (pool.used_pages ct)) }
  else .nothing ct

/-- `ztier_page_chunks_under_reclaim`: quarantine — move every free chunk of
the page (`[vaddr, vaddr + PAGE_SIZE)`) from `free_lists[tier]` into
`under_reclaim`.  `BUG_ON`s: bad tier, null page address, reclaim flag not
set. -/
def ztier_page_chunks_under_reclaim (pool : ZtierPool) (page : ℕ) :
    Except ZtierBug ZtierPool :=
  if NUM_TIERS ≤ (pool.pagePriv page).tier then .error .bug
  else if page = 0 then .error .bug
  else if ¬(pool.pagePriv page).reclaimFlag then .error .bug
  else
    .ok { pool with
            free_lists :=
              Function.update pool.free_lists (pool.pagePriv page).tier
                (ztier_rb_move_range
                  (pool.free_lists (pool.pagePriv page).tier)
                  pool.under_reclaim page (page + PAGE_SIZE)).1
            under_reclaim :=
              (ztier_rb_move_range (pool.free_lists (pool.pagePriv page).tier)
                pool.under_reclaim page (page + PAGE_SIZE)).2 }

/-- `ztier_page_chunks_from_under_reclaim`: reverse quarantine — move every
chunk of the page from `under_reclaim` back to `free_lists[tier]`.
`BUG_ON`s: bad tier, null page address, reclaim flag still set. -/
def ztier_page_chunks_from_under_reclaim (pool : ZtierPool) (page : ℕ) :
    Except ZtierBug ZtierPool :=
  if NUM_TIERS ≤ (pool.pagePriv page).tier then .error .bug
  else if page = 0 then .error .bug
  else if (pool.pagePriv page).reclaimFlag then .error .bug
  else
    .ok { pool with
            under_reclaim :=
              (ztier_rb_move_range pool.under_reclaim
                (pool.free_lists (pool.pagePriv page).tier) page
                (page + PAGE_SIZE)).1
            free_lists :=
              Function.update pool.free_lists (pool.pagePriv page).tier
                (ztier_rb_move_range pool.under_reclaim
                  (pool.free_lists (pool.pagePriv page).tier) page
                  (page + PAGE_SIZE)).2 }

/-- Chunk indices of a page of the given tier
(`for (i = 0; i < PAGE_SIZE; i += TIER_SIZES[tier])`, i.e. the handles are
`page + i * TIER_SIZES[tier]`). -/
def chunkIdxs (tier : ℕ) : List ℕ := List.range (PAGE_SIZE / TIER_SIZES tier)

/-- The chunk loop of `ztier_attempt_evict_page_chunks`.  A chunk already in
`under_reclaim` is skipped after its fill-pattern sanity check; otherwise
(after asserting class alignment of the handle) the eviction callback is
invoked: on failure the walk aborts immediately (a failing `evict` has not
touched the chunk); on success the callback has called `ztier_free` on the
handle. -/
def ztier_attempt_evict_go (oracle : ℕ → Bool) (page tier : ℕ) :
    List ℕ → ZtierPool → Mem → Except ZtierBug (ZtierPool × Mem)
  | [], pool, mem => .ok (pool, mem)
  | i :: rest, pool, mem =>
    if page + i * TIER_SIZES tier ∉ pool.under_reclaim then
      if (page + i * TIER_SIZES tier) % TIER_SIZES tier ≠ 0 then .error .bug
      else if oracle (page + i * TIER_SIZES tier) then
        match ztier_free pool mem (page + i * TIER_SIZES tier) with
        | .error e => .error e
        | .ok (pool1, mem1) =>
          ztier_attempt_evict_go oracle page tier rest pool1 mem1
      else .ok (pool, mem)
    else
      if readU32 mem (page + i * TIER_SIZES tier) ≠ 0xAAAAAAAA ∧
          readU32 mem (page + i * TIER_SIZES tier) ≠ 0xCCCCCCCC then
        .error .bug
      else ztier_attempt_evict_go oracle page tier rest pool mem

/-- `ztier_attempt_evict_page_chunks`.  `BUG_ON`s: null page, bad tier,
reclaim flag not set. -/
def ztier_attempt_evict_page_chunks (pool : ZtierPool) (mem : Mem)
    (oracle : ℕ → Bool) (page : ℕ) : Except ZtierBug (ZtierPool × Mem) :=
  if page = 0 then .error .bug
  else if NUM_TIERS ≤ (pool.pagePriv page).tier then .error .bug
  else if ¬(pool.pagePriv page).reclaimFlag then .error .bug
  else
    ztier_attempt_evict_go oracle page (pool.pagePriv page).tier
      (chunkIdxs (pool.pagePriv page).tier) pool mem

/-- The membership walk of `ztier_page_chunks_reclaimed`: the first chunk not
in `under_reclaim` answers `false`; chunks found there are checked for the
free fill patterns (`BUG` otherwise). -/
def ztier_reclaimed_check (pool : ZtierPool) (mem : Mem) (page tier : ℕ) :
    List ℕ → Except ZtierBug Bool
  | [] => .ok true
  | i :: rest =>
    if page + i * TIER_SIZES tier ∉ pool.under_reclaim then .ok false
    else if readU32 mem (page + i * TIER_SIZES tier) ≠ 0xAAAAAAAA ∧
        readU32 mem (page + i * TIER_SIZES tier) ≠ 0xCCCCCCCC then
      .error .bug
    else ztier_reclaimed_check pool mem page tier rest

/-- `ztier_page_chunks_reclaimed`: if every chunk of the page is in
`under_reclaim`, discard them from `under_reclaim`
(`ztier_rb_move_range(.., NULL, ..)`), fill the page with `0xDD`, poison its
metadata, return it to the page-frame allocator (`__free_page`), subtract
`PAGE_SIZE` from the pool size (`BUG_ON` underflow), and answer `true`;
otherwise answer `false` changing nothing. -/
def ztier_page_chunks_reclaimed (pool : ZtierPool) (mem : Mem) (page : ℕ) :
    Except ZtierBug (Bool × ZtierPool × Mem) :=
  if NUM_TIERS ≤ (pool.pagePriv page).tier then .error .bug
  else if page = 0 then .error .bug
  else if ¬(pool.pagePriv page).reclaimFlag then .error .bug
  else
    match ztier_reclaimed_check pool mem page (pool.pagePriv page).tier
        (chunkIdxs (pool.pagePriv page).tier) with
    | .error e => .error e
    | .ok false => .ok (false, pool, mem)
    | .ok true =>
      if pool.size < PAGE_SIZE then .error .bug
      else .ok (true,
        { pool with
            under_reclaim :=
              (ztier_rb_move_range pool.under_reclaim ∅ page
                (page + PAGE_SIZE)).1
            pagePriv := Function.update pool.pagePriv page PRIV_POISON
            size := pool.size - PAGE_SIZE },
        memset mem page PAGE_SIZE 0xDD)

/-- One iteration body of `ztier_reclaim_page` after victim selection:
assert the victim is not already flagged and has a sane tier, set the
reclaim flag, record `reclaim_tier`, detach the page from its list
(`list_del`), quarantine its free chunks, run the eviction walk, and either
free the page (`.ok (true, ..)`) or — asserting `reclaim_tier ==
current_tier` — re-attach the page at the head of
`used_pages[reclaim_tier]`, clear its flag, reverse the quarantine, and
answer `.ok (false, ..)`. -/
def ztier_reclaim_attempt (pool : ZtierPool) (mem : Mem) (oracle : ℕ → Bool)
    (page : ℕ) (current_tier : ℕ) : Except ZtierBug (Bool × ZtierPool × Mem) :=
  if (pool.pagePriv page).reclaimFlag then .error .bug
  else if NUM_TIERS ≤ (pool.pagePriv page).tier then .error .bug
  else
    -- `reclaim_tier = page->ztier_private & TIER_MASK` is read after setting
    -- the flag; setting the flag leaves the tier view unchanged, so it equals
    -- `(pool.pagePriv page).tier` below.
    match ztier_page_chunks_under_reclaim
        { pool with
            pagePriv :=
              Function.update pool.pagePriv page
                ⟨(pool.pagePriv page).tier, true⟩
            used_pages := fun t => (pool.used_pages t).erase page }
        page with
    | .error e => .error e
    | .ok pool2 =>
      match ztier_attempt_evict_page_chunks pool2 mem oracle page with
      | .error e => .error e
      | .ok (pool3, mem3) =>
        match ztier_page_chunks_reclaimed pool3 mem3 page with
        | .error e => .error e
        | .ok (true, pool4, mem4) => .ok (true, pool4, mem4)
        | .ok (false, pool4, mem4) =>
          if (pool.pagePriv page).tier ≠ current_tier then .error .bug
          else
            match ztier_page_chunks_from_under_reclaim
                { pool4 with
                    used_pages :=
                      Function.update pool4.used_pages
                        (pool.pagePriv page).tier
                        (page :: pool4.used_pages (pool.pagePriv page).tier)
                    pagePriv :=
                      Function.update pool4.pagePriv page
                        ⟨(pool.pagePriv page).tier, false⟩ }
                page with
            | .error e => .error e
            | .ok pool6 => .ok (false, pool6, mem4)

/-- Result of `ztier_reclaim_page`: `0`, `-EINVAL`, or `-EAGAIN`. -/
inductive RecRes
  | ok
  | einval
  | eagain
deriving DecidableEq, Repr

/-- The `while (retries-- > 0)` loop of `ztier_reclaim_page`, with the fuel
equal to the remaining retries.  A NULL from victim selection returns
`-EAGAIN` *immediately* (lines 1167–1171 of the source); a successful attempt
returns `0`; a failed attempt consumes one retry and loops with
`current_page` remembering the victim just tried. -/
def ztier_reclaim_loop (oracle : ℕ → Bool) :
    ℕ → ℕ → Option ℕ → ZtierPool → Mem →
      Except ZtierBug (RecRes × ZtierPool × Mem)
  | 0, _, _, pool, mem => .ok (.eagain, pool, mem)
  | Nat.succ r, ct, cp, pool, mem =>
    if NUM_TIERS ≤ ct then .error .bug
    else
      match ztier_reclaim_select_page pool ct cp with
      | .stuck => .error .bug
      | .nothing _ => .ok (.eagain, pool, mem)
      | .found page pool1 =>
        match ztier_reclaim_attempt pool1 mem oracle page ct with
        | .error e => .error e
        | .ok (true, pool2, mem2) => .ok (.ok, pool2, mem2)
        | .ok (false, pool2, mem2) =>
          ztier_reclaim_loop oracle r ct (some page) pool2 mem2

/-- `ztier_reclaim_page(pool, retries)`: `-EINVAL` when no eviction callback
is registered (`!pool->ops || !pool->ops->evict`), every tier's page list is
empty, or `retries == 0`; otherwise the retry loop starting at tier 0 with no
previously chosen page. -/
def ztier_reclaim_page (pool : ZtierPool) (mem : Mem) (oracle : ℕ → Bool)
    (retries : ℕ) : Except ZtierBug (RecRes × ZtierPool × Mem) :=
  if ¬pool.hasEvict ∨ ztier_all_tiers_empty pool = true ∨ retries = 0 then
    .ok (.einval, pool, mem)
  else ztier_reclaim_loop oracle retries 0 none pool mem

/-- `ztier_map`: the handle is the pointer. -/
def ztier_map (handle : ℕ) : ℕ := handle

/-- `ztier_get_pool_size`. -/
def ztier_get_pool_size (pool : ZtierPool) : ℕ := pool.size

/-- The per-tier loop of `ztier_free_all`: repeatedly take the first page of
`used_pages[tier]`, discard its free chunks
(`ztier_rb_move_range(.., NULL, ..)`), unlink it, poison its metadata, free
it, and subtract `PAGE_SIZE` from the pool size (`BUG_ON` on a null page
address or size underflow). -/
def ztier_free_all_go (tier : ℕ) : List ℕ → ZtierPool → Except ZtierBug ZtierPool
  | [], pool => .ok pool
  | page :: rest, pool =>
    if page = 0 then .error .bug
    else if pool.size < PAGE_SIZE then .error .bug
    else
      ztier_free_all_go tier rest
        { pool with
            free_lists :=
              Function.update pool.free_lists tier
                (ztier_rb_move_range (pool.free_lists tier) ∅ page
                  (page + PAGE_SIZE)).1
            used_pages := Function.update pool.used_pages tier rest
            pagePriv := Function.update pool.pagePriv page PRIV_POISON
            size := pool.size - PAGE_SIZE }

/-- `ztier_free_all`: drain every tier in order. -/
def ztier_free_all (pool : ZtierPool) : Except ZtierBug ZtierPool :=
  match ztier_free_all_go 0 (pool.used_pages 0) pool with
  | .error e => .error e
  | .ok pool1 =>
    match ztier_free_all_go 1 (pool1.used_pages 1) pool1 with
    | .error e => .error e
    | .ok pool2 => ztier_free_all_go 2 (pool2.used_pages 2) pool2

/-- `ztier_destroy_pool`: assert that no page is under reclaim
(`BUG_ON(rb_first(&pool->under_reclaim))`) and free every remaining page.
The source performs no other emptiness check before tearing the pool down. -/
def ztier_destroy_pool (pool : ZtierPool) : Except ZtierBug ZtierPool :=
  if pool.under_reclaim = ∅ then ztier_free_all pool else .error .bug

/-- The structural pool invariant (spec §3, invariants 1, 2): every chunk of
a free list lies in a page carved for that tier whose reclaim flag is clear;
every chunk of `under_reclaim` lies in a flagged page; every listed page
base is page-aligned and non-null (the page-frame allocator hands out
aligned, non-null pages). -/
def ZtierInv (p : ZtierPool) : Prop :=
  (∀ t, ∀ x ∈ p.free_lists t,
      (p.pagePriv (pageBase x)).tier = t ∧
        (p.pagePriv (pageBase x)).reclaimFlag = false) ∧
  (∀ x ∈ p.under_reclaim, (p.pagePriv (pageBase x)).reclaimFlag = true) ∧
  (∀ t, ∀ q ∈ p.used_pages t, q % PAGE_SIZE = 0 ∧ q ≠ 0)

/-- Pool states reachable by complete API calls from a freshly created pool.
The `alloc` step carries the page-frame-allocator contract: a page handed
out by `alloc_page` is 4096-aligned, non-null, and not currently owned by
the pool (none of its chunks sit in any pool set). -/
inductive Reachable : ZtierPool → Prop
  | create (ops : Bool) : Reachable (ztier_create_pool ops)
  | alloc (p : ZtierPool) (mem : Mem) (size : ℕ) (g : Bool) (pa : Option ℕ)
      (hp : Reachable p)
      (hfresh : ∀ b, pa = some b → b % PAGE_SIZE = 0 ∧ b ≠ 0 ∧
        ∀ x, pageBase x = b →
          (∀ t, x ∉ p.free_lists t) ∧ x ∉ p.under_reclaim) :
      Reachable (ztier_alloc p mem size g pa).2.1
  | free (p p2 : ZtierPool) (mem mem2 : Mem) (h : ℕ)
      (hp : Reachable p) (hok : ztier_free p mem h = .ok (p2, mem2)) :
      Reachable p2
  | reclaim (p p2 : ZtierPool) (mem mem2 : Mem) (oracle : ℕ → Bool)
      (retries : ℕ) (res : RecRes) (hp : Reachable p)
      (hok : ztier_reclaim_page p mem oracle retries = .ok (res, p2, mem2)) :
      Reachable p2

/-! ### Arithmetic facts about the configuration -/

lemma TIER_SIZES_cases (t : ℕ) :
    TIER_SIZES t = 2048 ∨ TIER_SIZES t = 1024 ∨ TIER_SIZES t = 256 := by
  match t with
  | 0 => exact Or.inl rfl
  | 1 => exact Or.inr (Or.inl rfl)
  | n + 2 => exact Or.inr (Or.inr rfl)

lemma TIER_SIZES_pos (t : ℕ) : 0 < TIER_SIZES t := by
  rcases TIER_SIZES_cases t with h | h | h <;> omega

lemma TIER_SIZES_dvd (t : ℕ) : PAGE_SIZE / TIER_SIZES t * TIER_SIZES t = PAGE_SIZE := by
  rcases TIER_SIZES_cases t with h | h | h <;> rw [h] <;> rfl

lemma pageBase_le (h : ℕ) : pageBase h ≤ h := by
  unfold pageBase
  exact Nat.div_mul_le_self h PAGE_SIZE

lemma lt_pageBase_add (h : ℕ) : h < pageBase h + PAGE_SIZE := by
  unfold pageBase
  simp only [PAGE_SIZE]
  omega

lemma pageBase_eq_of_range {b x : ℕ} (hb : b % PAGE_SIZE = 0) (h1 : b ≤ x)
    (h2 : x < b + PAGE_SIZE) : pageBase x = b := by
  unfold pageBase
  simp only [PAGE_SIZE] at *
  omega

lemma range_of_pageBase_eq {b x : ℕ} (h : pageBase x = b) :
    b ≤ x ∧ x < b + PAGE_SIZE := by
  subst h
  exact ⟨pageBase_le x, lt_pageBase_add x⟩

lemma mem_pageChunks {x b t : ℕ} :
    x ∈ pageChunks b t ↔
      ∃ i, i < PAGE_SIZE / TIER_SIZES t ∧ x = b + i * TIER_SIZES t := by
  unfold pageChunks
  simp [Finset.mem_image, eq_comm]

lemma pageChunks_range {x b t : ℕ} (hx : x ∈ pageChunks b t) :
    b ≤ x ∧ x < b + PAGE_SIZE := by
  obtain ⟨i, hi, rfl⟩ := mem_pageChunks.mp hx
  have hmul : i * TIER_SIZES t + TIER_SIZES t ≤ PAGE_SIZE := by
    have h1 : (i + 1) * TIER_SIZES t ≤ PAGE_SIZE / TIER_SIZES t * TIER_SIZES t :=
      Nat.mul_le_mul_right _ hi
    rw [TIER_SIZES_dvd] at h1
    nlinarith [TIER_SIZES_pos t]
  have := TIER_SIZES_pos t
  omega

lemma pageChunks_base {x b t : ℕ} (hb : b % PAGE_SIZE = 0)
    (hx : x ∈ pageChunks b t) : pageBase x = b :=
  pageBase_eq_of_range hb (pageChunks_range hx).1 (pageChunks_range hx).2

lemma pageChunks_aligned {x b t : ℕ} (hb : b % PAGE_SIZE = 0)
    (hx : x ∈ pageChunks b t) : x % TIER_SIZES t = 0 := by
  obtain ⟨i, hi, rfl⟩ := mem_pageChunks.mp hx
  have hdvd : TIER_SIZES t ∣ PAGE_SIZE := Dvd.intro_left _ (TIER_SIZES_dvd t)
  have hbdvd : TIER_SIZES t ∣ b := hdvd.trans (Nat.dvd_of_mod_eq_zero hb)
  obtain ⟨k, rfl⟩ := hbdvd
  have hrw : TIER_SIZES t * k + i * TIER_SIZES t = (k + i) * TIER_SIZES t := by
    ring
  rw [hrw, Nat.mul_mod_left]

/-! ### Memory lemmas -/

lemma memset_apply_in {m : Mem} {a n v x : ℕ} (h1 : a ≤ x) (h2 : x < a + n) :
    memset m a n v x = v := by
  unfold memset
  rw [if_pos ⟨h1, h2⟩]

lemma memset_apply_out {m : Mem} {a n v x : ℕ} (h : ¬(a ≤ x ∧ x < a + n)) :
    memset m a n v x = m x := by
  unfold memset
  rw [if_neg h]

lemma readU32_memset_fill {m : Mem} {a n : ℕ} (hn : 4 ≤ n) :
    readU32 (memset m a n 0xAA) a = 0xAAAAAAAA := by
  unfold readU32
  rw [memset_apply_in (le_refl a) (by omega),
      memset_apply_in (by omega) (by omega),
      memset_apply_in (by omega) (by omega),
      memset_apply_in (by omega) (by omega)]

/-! ### Characterization of a successful `ztier_free` -/

lemma ztier_free_ok_spec {pool : ZtierPool} {mem : Mem} {h : ℕ}
    {p2 : ZtierPool} {m2 : Mem}
    (hok : ztier_free pool mem h = .ok (p2, m2)) :
    m2 = memset mem h (TIER_SIZES (pool.pagePriv (pageBase h)).tier) 0xAA ∧
    p2.size = pool.size ∧ p2.used_pages = pool.used_pages ∧
    p2.pagePriv = pool.pagePriv ∧ p2.hasEvict = pool.hasEvict ∧
    h ≠ 0 ∧ h % TIER_SIZES (pool.pagePriv (pageBase h)).tier = 0 ∧
    (pool.pagePriv (pageBase h)).tier < NUM_TIERS ∧
    ((pool.pagePriv (pageBase h)).reclaimFlag = true →
       h ∉ pool.under_reclaim ∧
       p2.under_reclaim = insert h pool.under_reclaim ∧
       p2.free_lists = pool.free_lists) ∧
    ((pool.pagePriv (pageBase h)).reclaimFlag = false →
       h ∉ pool.free_lists (pool.pagePriv (pageBase h)).tier ∧
       p2.under_reclaim = pool.under_reclaim ∧
       p2.free_lists =
         Function.update pool.free_lists (pool.pagePriv (pageBase h)).tier
           (insert h (pool.free_lists (pool.pagePriv (pageBase h)).tier))) := by
  unfold ztier_free at hok
  split_ifs at hok with h0 halign htier hlow hfill hflag hdup hdup2 <;>
    simp only [Except.ok.injEq, Prod.mk.injEq, reduceCtorEq] at hok
  · obtain ⟨hp, hm⟩ := hok
    subst hp; subst hm
    refine ⟨rfl, rfl, rfl, rfl, rfl, h0, not_not.mp halign, by omega, ?_, ?_⟩
    · intro _
      exact ⟨hdup, rfl, rfl⟩
    · intro hcontra
      simp [hcontra] at hflag
  · obtain ⟨hp, hm⟩ := hok
    subst hp; subst hm
    refine ⟨rfl, rfl, rfl, rfl, rfl, h0, not_not.mp halign, by omega, ?_, ?_⟩
    · intro hcontra
      simp [hcontra] at hflag
    · intro _
      exact ⟨hdup2, rfl, rfl⟩

/-- C1: for every successful `free(P, handle)`, with `c` the class tag and
`r` the reclaim flag of the host page containing the handle (read under the
pool lock), the chunk is inserted into `P.reclaim` when `r = 1` and into
`P.free[c]` when `r = 0` (the other sets untouched); in either case `free`
releases no host page (the page lists, every page's metadata, and `P.bytes`
are unchanged — returning a page to `page_free` would decrement `P.bytes`
and poison the page metadata). -/
theorem free_inserts_by_reclaim_flag (pool : ZtierPool) (mem : Mem)
    (handle : ℕ) (p2 : ZtierPool) (m2 : Mem)
    (hok : ztier_free pool mem handle = .ok (p2, m2)) :
    ((pool.pagePriv (pageBase handle)).reclaimFlag = true →
       p2.under_reclaim = insert handle pool.under_reclaim ∧
       p2.free_lists = pool.free_lists) ∧
    ((pool.pagePriv (pageBase handle)).reclaimFlag = false →
       p2.free_lists (pool.pagePriv (pageBase handle)).tier =
         insert handle
           (pool.free_lists (pool.pagePriv (pageBase handle)).tier) ∧
       (∀ t, t ≠ (pool.pagePriv (pageBase handle)).tier →
          p2.free_lists t = pool.free_lists t) ∧
       p2.under_reclaim = pool.under_reclaim) ∧
    p2.size = pool.size ∧ p2.used_pages = pool.used_pages ∧
    p2.pagePriv = pool.pagePriv := by
  obtain ⟨-, hsize, hused, hpriv, -, -, -, -, hr1, hr0⟩ := ztier_free_ok_spec hok
  refine ⟨fun hr => ⟨(hr1 hr).2.1, (hr1 hr).2.2⟩, fun hr => ?_, hsize, hused, hpriv⟩
  obtain ⟨-, hunder, hfl⟩ := hr0 hr
  rw [hfl]
  exact ⟨Function.update_same _ _ _, fun t ht => Function.update_noteq ht _ _,
    hunder⟩

/-- Concrete pool used to witness the `ztier_free` claims: one class-0 page
at `4096`, both chunks live, nothing in any set. -/
def freeWitnessPool : ZtierPool :=
  { free_lists := fun _ => ∅
    used_pages := fun t => if t = 0 then [4096] else []
    under_reclaim := ∅
    size := 4096
    hasEvict := false
    pagePriv := fun p => if p = 4096 then ⟨0, false⟩ else PRIV_POISON }

/-- The pool and memory produced by freeing handle `4096` in
`freeWitnessPool`. -/
def freeWitnessOut : ZtierPool × Mem :=
  match ztier_free freeWitnessPool (fun _ => 0) 4096 with
  | .ok r => r
  | .error _ => (freeWitnessPool, fun _ => 0)

theorem free_inserts_by_reclaim_flag_witness :
    freeWitnessOut.1.free_lists 0 = insert 4096 (freeWitnessPool.free_lists 0) ∧
    freeWitnessOut.1.size = freeWitnessPool.size ∧
    freeWitnessOut.1.used_pages = freeWitnessPool.used_pages := by
  have h := free_inserts_by_reclaim_flag freeWitnessPool (fun _ => 0) 4096
    freeWitnessOut.1 freeWitnessOut.2 rfl
  have hflag : (freeWitnessPool.pagePriv (pageBase 4096)).reclaimFlag = false := by
    decide
  exact ⟨(h.2.1 hflag).1, h.2.2.1, h.2.2.2.1⟩

/-- C10: a successful `free(P, handle)` fills all `TIER_SIZES[c]` bytes of
the chunk at the handle with the `0xAA` pattern (`memset` at line 1060 of
the source) before the chunk is linked into the selected set, destroying the
chunk's previous contents; the rb-tree node is then written inside the chunk
(`RB_CLEAR_NODE` / `rb_link_node`, within `[handle + 8, handle + 32)`), which
the byte model leaves at the pre-link state. -/
theorem free_scrubs_chunk (pool : ZtierPool) (mem : Mem) (handle : ℕ)
    (p2 : ZtierPool) (m2 : Mem)
    (hok : ztier_free pool mem handle = .ok (p2, m2)) :
    ∀ off, off < TIER_SIZES (pool.pagePriv (pageBase handle)).tier →
      m2 (handle + off) = 0xAA := by
  obtain ⟨hm, -⟩ := ztier_free_ok_spec hok
  intro off hoff
  rw [hm]
  exact memset_apply_in (by omega) (by omega)

theorem free_scrubs_chunk_witness : freeWitnessOut.2 (4096 + 100) = 0xAA :=
  free_scrubs_chunk freeWitnessPool (fun _ => 0) 4096 freeWitnessOut.1
    freeWitnessOut.2 rfl 100 (by decide)

/-- C7: `ztier_alloc` returns `-EINVAL` for `size == 0` or a highmem `gfp`
hint, `-ENOSPC` for a size above the largest class, and `-ENOMEM` when the
chosen class has no free chunk and `alloc_page` fails; in each case the
returned pool and memory are the inputs unchanged and no handle is
produced. -/
theorem alloc_error_paths (pool : ZtierPool) (mem : Mem) (size : ℕ)
    (g : Bool) (pa : Option ℕ) :
    ((size = 0 ∨ g = true) →
       ztier_alloc pool mem size g pa = (.einval, pool, mem)) ∧
    (size ≠ 0 → g = false → TIER_SIZES 0 < size →
       ztier_alloc pool mem size g pa = (.enospc, pool, mem)) ∧
    (size ≠ 0 → g = false → size ≤ TIER_SIZES 0 →
       pool.free_lists (chooseTier size) = ∅ → pa = none →
       ztier_alloc pool mem size g pa = (.enomem, pool, mem)) := by
  refine ⟨?_, ?_, ?_⟩
  · intro h
    unfold ztier_alloc
    rw [if_pos h]
  · intro h1 h2 h3
    unfold ztier_alloc
    rw [if_neg (by simp [h1, h2]), if_pos h3]
  · intro h1 h2 h3 hfree hpa
    unfold ztier_alloc
    rw [if_neg (by simp [h1, h2]), if_neg (by omega),
      dif_neg (by rw [hfree]; exact Finset.not_nonempty_empty), hpa]

theorem alloc_error_paths_witness :
    ztier_alloc (ztier_create_pool true) (fun _ => 0) 0 false none =
      (.einval, ztier_create_pool true, fun _ => 0) ∧
    ztier_alloc (ztier_create_pool true) (fun _ => 0) 3000 false none =
      (.enospc, ztier_create_pool true, fun _ => 0) ∧
    ztier_alloc (ztier_create_pool true) (fun _ => 0) 100 false none =
      (.enomem, ztier_create_pool true, fun _ => 0) :=
  ⟨(alloc_error_paths _ _ _ _ _).1 (Or.inl rfl),
   (alloc_error_paths _ _ _ _ _).2.1 (by decide) rfl (by decide),
   (alloc_error_paths _ _ _ _ _).2.2 (by decide) rfl (by decide) rfl rfl⟩

/-! ### Characterization of a successful `ztier_alloc` -/

lemma chooseTier_lt (size : ℕ) : chooseTier size < NUM_TIERS := by
  unfold chooseTier NUM_TIERS
  split_ifs <;> omega

lemma chooseTier_tight {size : ℕ} (_h1 : 0 < size)
    (h2 : size ≤ TIER_SIZES 0) :
    size ≤ TIER_SIZES (chooseTier size) ∧
      (chooseTier size = NUM_TIERS - 1 ∨
        TIER_SIZES (chooseTier size + 1) < size) := by
  unfold chooseTier
  split_ifs with ha hb
  · exact ⟨ha, Or.inl rfl⟩
  · refine ⟨hb, Or.inr ?_⟩
    show TIER_SIZES 2 < size
    omega
  · refine ⟨h2, Or.inr ?_⟩
    show TIER_SIZES 1 < size
    omega

lemma ztier_alloc_ok_spec {pool : ZtierPool} {mem : Mem} {size : ℕ} {g : Bool}
    {pa : Option ℕ} {h : ℕ} {p2 : ZtierPool} {m2 : Mem}
    (hok : ztier_alloc pool mem size g pa = (.ok h, p2, m2)) :
    size ≠ 0 ∧ g = false ∧ size ≤ TIER_SIZES 0 ∧
    ((∃ hne : (pool.free_lists (chooseTier size)).Nonempty,
        h = (pool.free_lists (chooseTier size)).min' hne ∧
        p2.free_lists =
          Function.update pool.free_lists (chooseTier size)
            ((pool.free_lists (chooseTier size)).erase h) ∧
        p2.used_pages = pool.used_pages ∧
        p2.under_reclaim = pool.under_reclaim ∧
        p2.pagePriv = pool.pagePriv ∧ p2.size = pool.size ∧
        p2.hasEvict = pool.hasEvict) ∨
     (∃ b, pa = some b ∧ pool.free_lists (chooseTier size) = ∅ ∧ b ≠ 0 ∧
        pool.pagePriv b = PRIV_POISON ∧ h ∈ pageChunks b (chooseTier size) ∧
        p2.free_lists =
          Function.update pool.free_lists (chooseTier size)
            ((pool.free_lists (chooseTier size) ∪
                pageChunks b (chooseTier size)).erase h) ∧
        p2.used_pages =
          Function.update pool.used_pages (chooseTier size)
            (b :: pool.used_pages (chooseTier size)) ∧
        p2.under_reclaim = pool.under_reclaim ∧
        p2.pagePriv =
          Function.update pool.pagePriv b ⟨chooseTier size, false⟩ ∧
        p2.size = pool.size + PAGE_SIZE ∧
        p2.hasEvict = pool.hasEvict)) := by
  unfold ztier_alloc at hok
  split_ifs at hok with hein hnospc hne
  · simp at hok
  · simp at hok
  · -- non-growth success
    simp only [Prod.mk.injEq, AllocRes.ok.injEq] at hok
    obtain ⟨hh, hp, hm⟩ := hok
    subst hp
    refine ⟨fun hc => hein (Or.inl hc),
      by simpa using fun hc => hein (Or.inr hc), by omega,
      Or.inl ⟨hne, hh.symm, ?_, rfl, rfl, rfl, rfl, rfl⟩⟩
    rw [hh]
  · -- free list empty: consult the page allocator
    have hfree : pool.free_lists (chooseTier size) = ∅ :=
      Finset.not_nonempty_iff_eq_empty.mp hne
    split at hok
    · simp at hok
    · rename_i b
      split at hok
      · simp at hok
      · rename_i pool1 mem1 hinit
        split at hok
        · rename_i hne2
          simp only [Prod.mk.injEq, AllocRes.ok.injEq] at hok
          obtain ⟨hh, hp, hm⟩ := hok
          subst hp
          unfold ztier_init_page at hinit
          split_ifs at hinit with hb0 htier hpoison
          simp only [Except.ok.injEq, Prod.mk.injEq] at hinit
          obtain ⟨hp1, hm1⟩ := hinit
          subst hp1; subst hm1
          have hmemc : h ∈ pageChunks b (chooseTier size) := by
            have hmm := Finset.min'_mem _ hne2
            rw [hh] at hmm
            simp only [Function.update_same] at hmm
            rw [hfree] at hmm
            simpa using hmm
          refine ⟨fun hc => hein (Or.inl hc),
            by simpa using fun hc => hein (Or.inr hc), by omega,
            Or.inr ⟨b, rfl, hfree, hb0, not_not.mp hpoison, hmemc, ?_, rfl,
              rfl, rfl, rfl, rfl⟩⟩
          rw [← hh]
          simp only [Function.update_same, Function.update_idem]
        · simp at hok

/-! ### Characterizations of the reclaim-driver helpers -/

lemma chunkIdx_mul_lt {i tier : ℕ} (hi : i ∈ chunkIdxs tier) :
    i * TIER_SIZES tier < PAGE_SIZE := by
  unfold chunkIdxs at hi
  rw [List.mem_range] at hi
  have h1 : (i + 1) * TIER_SIZES tier ≤
      PAGE_SIZE / TIER_SIZES tier * TIER_SIZES tier :=
    Nat.mul_le_mul_right _ hi
  rw [TIER_SIZES_dvd] at h1
  nlinarith [TIER_SIZES_pos tier]

lemma under_reclaim_ok_spec {pool : ZtierPool} {page : ℕ} {p2 : ZtierPool}
    (hok : ztier_page_chunks_under_reclaim pool page = .ok p2) :
    (pool.pagePriv page).tier < NUM_TIERS ∧ page ≠ 0 ∧
    (pool.pagePriv page).reclaimFlag = true ∧
    p2.free_lists =
      Function.update pool.free_lists (pool.pagePriv page).tier
        ((pool.free_lists (pool.pagePriv page).tier).filter
          (fun x => ¬(page ≤ x ∧ x < page + PAGE_SIZE))) ∧
    p2.under_reclaim =
      pool.under_reclaim ∪
        (pool.free_lists (pool.pagePriv page).tier).filter
          (fun x => page ≤ x ∧ x < page + PAGE_SIZE) ∧
    p2.used_pages = pool.used_pages ∧ p2.pagePriv = pool.pagePriv ∧
    p2.size = pool.size ∧ p2.hasEvict = pool.hasEvict := by
  unfold ztier_page_chunks_under_reclaim ztier_rb_move_range at hok
  split_ifs at hok with ht hp hf
  simp only [Except.ok.injEq] at hok
  subst hok
  exact ⟨by omega, hp, hf, rfl, rfl, rfl, rfl, rfl, rfl⟩

lemma from_under_reclaim_ok_spec {pool : ZtierPool} {page : ℕ} {p2 : ZtierPool}
    (hok : ztier_page_chunks_from_under_reclaim pool page = .ok p2) :
    (pool.pagePriv page).tier < NUM_TIERS ∧ page ≠ 0 ∧
    (pool.pagePriv page).reclaimFlag = false ∧
    p2.under_reclaim =
      pool.under_reclaim.filter
        (fun x => ¬(page ≤ x ∧ x < page + PAGE_SIZE)) ∧
    p2.free_lists =
      Function.update pool.free_lists (pool.pagePriv page).tier
        (pool.free_lists (pool.pagePriv page).tier ∪
          pool.under_reclaim.filter
            (fun x => page ≤ x ∧ x < page + PAGE_SIZE)) ∧
    p2.used_pages = pool.used_pages ∧ p2.pagePriv = pool.pagePriv ∧
    p2.size = pool.size ∧ p2.hasEvict = pool.hasEvict := by
  unfold ztier_page_chunks_from_under_reclaim ztier_rb_move_range at hok
  split_ifs at hok with ht hp hf
  simp only [Except.ok.injEq] at hok
  subst hok
  exact ⟨by omega, hp, by simpa using hf, rfl, rfl, rfl, rfl, rfl, rfl⟩

lemma reclaimed_false_spec {pool : ZtierPool} {mem : Mem} {page : ℕ}
    {p2 : ZtierPool} {m2 : Mem}
    (hok : ztier_page_chunks_reclaimed pool mem page = .ok (false, p2, m2)) :
    p2 = pool ∧ m2 = mem := by
  unfold ztier_page_chunks_reclaimed at hok
  split_ifs at hok with h1 h2 h3 h4
  · split at hok
    · simp at hok
    · simp only [Except.ok.injEq, Prod.mk.injEq, true_and] at hok
      exact ⟨hok.1.symm, hok.2.symm⟩
    · simp at hok
  · split at hok
    · simp at hok
    · simp only [Except.ok.injEq, Prod.mk.injEq, true_and] at hok
      exact ⟨hok.1.symm, hok.2.symm⟩
    · simp at hok

lemma reclaimed_true_spec {pool : ZtierPool} {mem : Mem} {page : ℕ}
    {p2 : ZtierPool} {m2 : Mem}
    (hok : ztier_page_chunks_reclaimed pool mem page = .ok (true, p2, m2)) :
    (pool.pagePriv page).tier < NUM_TIERS ∧ page ≠ 0 ∧
    (pool.pagePriv page).reclaimFlag = true ∧ PAGE_SIZE ≤ pool.size ∧
    p2.under_reclaim =
      pool.under_reclaim.filter
        (fun x => ¬(page ≤ x ∧ x < page + PAGE_SIZE)) ∧
    p2.pagePriv = Function.update pool.pagePriv page PRIV_POISON ∧
    p2.free_lists = pool.free_lists ∧ p2.used_pages = pool.used_pages ∧
    p2.size = pool.size - PAGE_SIZE ∧ p2.hasEvict = pool.hasEvict := by
  unfold ztier_page_chunks_reclaimed ztier_rb_move_range at hok
  split_ifs at hok with h1 h2 h3 h4
  · split at hok
    · simp at hok
    · simp at hok
    · simp at hok
  · split at hok
    · simp at hok
    · simp at hok
    · simp only [Except.ok.injEq, Prod.mk.injEq, true_and] at hok
      obtain ⟨hp, hm⟩ := hok
      subst hp
      exact ⟨by omega, h2, h3, by omega, rfl, rfl, rfl, rfl, rfl, rfl⟩

lemma attempt_evict_ok_spec {pool : ZtierPool} {mem : Mem} {oracle : ℕ → Bool}
    {page : ℕ} {p2 : ZtierPool} {m2 : Mem}
    (hok : ztier_attempt_evict_page_chunks pool mem oracle page = .ok (p2, m2)) :
    page ≠ 0 ∧ (pool.pagePriv page).tier < NUM_TIERS ∧
    (pool.pagePriv page).reclaimFlag = true ∧
    ztier_attempt_evict_go oracle page (pool.pagePriv page).tier
      (chunkIdxs (pool.pagePriv page).tier) pool mem = .ok (p2, m2) := by
  unfold ztier_attempt_evict_page_chunks at hok
  split_ifs at hok with h0 ht hf
  exact ⟨h0, by omega, hf, hok⟩

/-- What the eviction walk does to the pool: writes only into
`under_reclaim`, and only chunks of the walked page; every other pool
component is untouched (a successful per-chunk eviction routes through
`ztier_free` on a flagged page). -/
lemma evict_go_spec (oracle : ℕ → Bool) (page tier : ℕ) :
    ∀ (offs : List ℕ) (pool : ZtierPool) (mem : Mem) (p2 : ZtierPool)
      (m2 : Mem),
      (pool.pagePriv page).reclaimFlag = true →
      page % PAGE_SIZE = 0 →
      (∀ i ∈ offs, i * TIER_SIZES tier < PAGE_SIZE) →
      ztier_attempt_evict_go oracle page tier offs pool mem = .ok (p2, m2) →
      p2.free_lists = pool.free_lists ∧ p2.used_pages = pool.used_pages ∧
      p2.pagePriv = pool.pagePriv ∧ p2.size = pool.size ∧
      p2.hasEvict = pool.hasEvict ∧
      (∀ x ∈ pool.under_reclaim, x ∈ p2.under_reclaim) ∧
      (∀ x ∈ p2.under_reclaim,
        x ∈ pool.under_reclaim ∨ (page ≤ x ∧ x < page + PAGE_SIZE)) := by
  intro offs
  induction offs with
  | nil =>
    intro pool mem p2 m2 hflag halign hoffs hok
    simp only [ztier_attempt_evict_go, Except.ok.injEq, Prod.mk.injEq] at hok
    obtain ⟨hp, hm⟩ := hok
    subst hp
    exact ⟨rfl, rfl, rfl, rfl, rfl, fun x hx => hx, fun x hx => Or.inl hx⟩
  | cons i rest ih =>
    intro pool mem p2 m2 hflag halign hoffs hok
    have hi : i * TIER_SIZES tier < PAGE_SIZE := hoffs i (by simp)
    have hrest : ∀ j ∈ rest, j * TIER_SIZES tier < PAGE_SIZE :=
      fun j hj => hoffs j (by simp [hj])
    rw [ztier_attempt_evict_go] at hok
    by_cases hmem : page + i * TIER_SIZES tier ∈ pool.under_reclaim
    · -- chunk already drained: content sanity check, then skip
      rw [if_neg (fun hc => hc hmem)] at hok
      by_cases hread : readU32 mem (page + i * TIER_SIZES tier) ≠ 0xAAAAAAAA ∧
          readU32 mem (page + i * TIER_SIZES tier) ≠ 0xCCCCCCCC
      · rw [if_pos hread] at hok
        simp at hok
      · rw [if_neg hread] at hok
        exact ih pool mem p2 m2 hflag halign hrest hok
    · rw [if_pos hmem] at hok
      by_cases hal : (page + i * TIER_SIZES tier) % TIER_SIZES tier ≠ 0
      · rw [if_pos hal] at hok
        simp at hok
      · rw [if_neg hal] at hok
        by_cases hora : oracle (page + i * TIER_SIZES tier) = true
        · -- eviction succeeds (and performed the free)
          rw [if_pos hora] at hok
          split at hok
          · simp at hok
          · rename_i pool1 mem1 heq
            have hbase : pageBase (page + i * TIER_SIZES tier) = page :=
              pageBase_eq_of_range halign (by omega) (by omega)
            have hspec := ztier_free_ok_spec heq
            rw [hbase] at hspec
            obtain ⟨-, hsz, hup, hpv, hhe, -, -, -, hr1, -⟩ := hspec
            obtain ⟨-, hunder, hfl⟩ := hr1 hflag
            have hflag1 : (pool1.pagePriv page).reclaimFlag = true := by
              rw [hpv]; exact hflag
            obtain ⟨g1, g2, g3, g4, g5, g6, g7⟩ :=
              ih pool1 mem1 p2 m2 hflag1 halign hrest hok
            refine ⟨g1.trans hfl, g2.trans hup, g3.trans hpv, g4.trans hsz,
              g5.trans hhe, ?_, ?_⟩
            · intro x hx
              exact g6 x (by rw [hunder]; exact Finset.mem_insert_of_mem hx)
            · intro x hx
              rcases g7 x hx with hx1 | hx1
              · rw [hunder] at hx1
                rcases Finset.mem_insert.mp hx1 with rfl | hx2
                · exact Or.inr ⟨by omega, by omega⟩
                · exact Or.inl hx2
              · exact Or.inr hx1
        · -- eviction refuses: abort with nothing changed
          rw [if_neg hora] at hok
          simp only [Except.ok.injEq, Prod.mk.injEq] at hok
          obtain ⟨hp, hm⟩ := hok
          subst hp
          exact ⟨rfl, rfl, rfl, rfl, rfl, fun x hx => hx,
            fun x hx => Or.inl hx⟩

/-- Full characterization of a failed reclaim attempt
(`ztier_reclaim_attempt = .ok (false, ..)`): the victim's reclaim flag is
cleared, every chunk of the victim page that sat in `under_reclaim` is back
in the class free-set, pre-existing free chunks survive, nothing foreign
enters the free-set, no chunk of the page stays in `under_reclaim`, the page
is re-attached at the head of its class list, and the pool size is
untouched. -/
lemma attempt_fail_spec {pool : ZtierPool} {mem : Mem} {oracle : ℕ → Bool}
    {page ct : ℕ} {p2 : ZtierPool} {m2 : Mem}
    (halign : page % PAGE_SIZE = 0)
    (hok : ztier_reclaim_attempt pool mem oracle page ct =
      .ok (false, p2, m2)) :
    (pool.pagePriv page).reclaimFlag = false ∧
    (pool.pagePriv page).tier = ct ∧ page ≠ 0 ∧
    p2.pagePriv page = ⟨(pool.pagePriv page).tier, false⟩ ∧
    (∀ q, q ≠ page → p2.pagePriv q = pool.pagePriv q) ∧
    p2.size = pool.size ∧ p2.hasEvict = pool.hasEvict ∧
    p2.used_pages (pool.pagePriv page).tier =
      page :: (pool.used_pages (pool.pagePriv page).tier).erase page ∧
    (∀ t, t ≠ (pool.pagePriv page).tier →
       p2.used_pages t = (pool.used_pages t).erase page) ∧
    (∀ x ∈ p2.under_reclaim,
       x ∈ pool.under_reclaim ∧ ¬(page ≤ x ∧ x < page + PAGE_SIZE)) ∧
    (∀ x ∈ pool.under_reclaim, page ≤ x → x < page + PAGE_SIZE →
       x ∈ p2.free_lists (pool.pagePriv page).tier) ∧
    (∀ x ∈ pool.free_lists (pool.pagePriv page).tier,
       x ∈ p2.free_lists (pool.pagePriv page).tier) ∧
    (∀ x ∈ p2.free_lists (pool.pagePriv page).tier,
       x ∈ pool.free_lists (pool.pagePriv page).tier ∨
         (page ≤ x ∧ x < page + PAGE_SIZE)) ∧
    (∀ t, t ≠ (pool.pagePriv page).tier →
       p2.free_lists t = pool.free_lists t) := by
  unfold ztier_reclaim_attempt at hok
  split_ifs at hok with hflag0 htier0 hctne
  · -- `reclaim_tier != current_tier` would be a BUG: no `.ok` possible
    split at hok
    · simp at hok
    · split at hok
      · simp at hok
      · split at hok
        · simp at hok
        · simp at hok
        · simp at hok
  · split at hok
    · simp at hok
    · rename_i pool2 hq
      split at hok
      · simp at hok
      · rename_i pool3 mem3 hev
        split at hok
        · simp at hok
        · simp at hok
        · rename_i pool4 mem4 hrc
          split at hok
          · simp at hok
          · rename_i pool6 hu
            simp only [Except.ok.injEq, Prod.mk.injEq, true_and] at hok
            obtain ⟨hp6, hm6⟩ := hok
            subst hp6
            obtain ⟨hp43, hm43⟩ := reclaimed_false_spec hrc
            subst hp43
            have hq' := under_reclaim_ok_spec hq
            simp only [Function.update_same] at hq'
            obtain ⟨hq1, hqpg, -, hqf, hqu, hqup, hqpv, hqsz, hqhe⟩ := hq'
            have hflag2 : (pool2.pagePriv page).reclaimFlag = true := by
              rw [hqpv]
              simp [Function.update_same]
            have htier2 : (pool2.pagePriv page).tier =
                (pool.pagePriv page).tier := by
              rw [hqpv]
              simp [Function.update_same]
            obtain ⟨-, -, -, hgo⟩ := attempt_evict_ok_spec hev
            rw [htier2] at hgo
            obtain ⟨g1, g2, g3, g4, g5, g6, g7⟩ :=
              evict_go_spec oracle page (pool.pagePriv page).tier
                (chunkIdxs (pool.pagePriv page).tier) pool2 mem pool4 mem3
                hflag2 halign (fun i hi => chunkIdx_mul_lt hi) hgo
            have hu' := from_under_reclaim_ok_spec hu
            simp only [Function.update_same] at hu'
            obtain ⟨-, -, -, huu, huf, huup, hupv, husz, huhe⟩ := hu'
            have hfree3 : pool4.free_lists (pool.pagePriv page).tier =
                (pool.free_lists (pool.pagePriv page).tier).filter
                  (fun x => ¬(page ≤ x ∧ x < page + PAGE_SIZE)) := by
              rw [g1, hqf, Function.update_same]
            have hfree2 : pool6.free_lists (pool.pagePriv page).tier =
                pool4.free_lists (pool.pagePriv page).tier ∪
                  pool4.under_reclaim.filter
                    (fun x => page ≤ x ∧ x < page + PAGE_SIZE) := by
              rw [huf, Function.update_same]
            refine ⟨by simpa using hflag0, not_not.mp hctne, hqpg, ?_, ?_, ?_, ?_,
              ?_, ?_, ?_, ?_, ?_, ?_, ?_⟩
            · rw [hupv]
              exact Function.update_same _ _ _
            · intro q hqne
              rw [hupv, Function.update_noteq hqne, g3, hqpv,
                Function.update_noteq hqne]
            · rw [husz, g4, hqsz]
            · rw [huhe, g5, hqhe]
            · rw [huup, Function.update_same, g2, hqup]
            · intro t ht
              rw [huup, Function.update_noteq ht, g2, hqup]
            · intro x hx
              rw [huu, Finset.mem_filter] at hx
              obtain ⟨hx3, hxr⟩ := hx
              rcases g7 x hx3 with hx2 | hx2
              · rw [hqu, Finset.mem_union] at hx2
                rcases hx2 with hx2 | hx2
                · exact ⟨hx2, hxr⟩
                · rw [Finset.mem_filter] at hx2
                  exact absurd hx2.2 hxr
              · exact absurd hx2 hxr
            · intro x hx hx1 hx2
              have hx3 : x ∈ pool4.under_reclaim :=
                g6 x (by rw [hqu]; exact Finset.mem_union_left _ hx)
              rw [hfree2, Finset.mem_union]
              exact Or.inr (Finset.mem_filter.mpr ⟨hx3, hx1, hx2⟩)
            · intro x hx
              rw [hfree2, Finset.mem_union]
              by_cases hxr : page ≤ x ∧ x < page + PAGE_SIZE
              · have hx2 : x ∈ pool2.under_reclaim := by
                  rw [hqu]
                  exact Finset.mem_union_right _
                    (Finset.mem_filter.mpr ⟨hx, hxr⟩)
                exact Or.inr (Finset.mem_filter.mpr ⟨g6 x hx2, hxr⟩)
              · exact Or.inl (by
                  rw [hfree3]
                  exact Finset.mem_filter.mpr ⟨hx, hxr⟩)
            · intro x hx
              rw [hfree2, Finset.mem_union] at hx
              rcases hx with hx | hx
              · rw [hfree3, Finset.mem_filter] at hx
                exact Or.inl hx.1
              · rw [Finset.mem_filter] at hx
                exact Or.inr hx.2
            · intro t ht
              rw [huf, Function.update_noteq ht, g1, hqf,
                Function.update_noteq ht]

/-- C4: whenever a reclaim attempt on a victim page `Q` fails (the eviction
callback refused, or the drain was incomplete), the driver reverses the
quarantine: `Q`'s reclaim flag is cleared, no chunk of `Q` remains in
`P.reclaim`, every chunk of `Q` that was in `P.reclaim` is moved back into
`P.free[c]` for `Q`'s original class `c` (pre-existing free chunks
surviving), `Q` is re-attached at the head of `P.pages[c]`, and `P.bytes`
is unchanged — so after `reclaim_one` fails on a single-page pool the size
is unchanged, the flag is `0`, and the free chunks are back in the class
free-set (see the witness for that literal scenario). -/
theorem reclaim_failure_reverses_quarantine (pool : ZtierPool) (mem : Mem)
    (oracle : ℕ → Bool) (page ct : ℕ) (p2 : ZtierPool) (m2 : Mem)
    (halign : page % PAGE_SIZE = 0)
    (hok : ztier_reclaim_attempt pool mem oracle page ct =
      .ok (false, p2, m2)) :
    (p2.pagePriv page).reclaimFlag = false ∧
    (∀ x ∈ p2.under_reclaim, ¬(page ≤ x ∧ x < page + PAGE_SIZE)) ∧
    (∀ x ∈ pool.under_reclaim, page ≤ x → x < page + PAGE_SIZE →
       x ∈ p2.free_lists (pool.pagePriv page).tier) ∧
    (∀ x ∈ pool.free_lists (pool.pagePriv page).tier,
       x ∈ p2.free_lists (pool.pagePriv page).tier) ∧
    p2.used_pages (pool.pagePriv page).tier =
      page :: (pool.used_pages (pool.pagePriv page).tier).erase page ∧
    p2.size = pool.size := by
  obtain ⟨-, -, -, h4, -, h6, -, h8, -, h10, h11, h12, -, -⟩ :=
    attempt_fail_spec halign hok
  exact ⟨by rw [h4], fun x hx => (h10 x hx).2, h11, h12, h8, h6⟩

/-- Single-page pool for the C4 scenario: one class-0 page at `4096`, chunk
`4096` free, chunk `6144` live; the eviction callback always refuses. -/
def c4wPool : ZtierPool :=
  { free_lists := fun t => if t = 0 then {4096} else ∅
    used_pages := fun t => if t = 0 then [4096] else []
    under_reclaim := ∅
    size := 4096
    hasEvict := true
    pagePriv := fun p => if p = 4096 then ⟨0, false⟩ else PRIV_POISON }

def c4wOut : ZtierPool × Mem :=
  match ztier_reclaim_attempt c4wPool (fun _ => 0xAA) (fun _ => false) 4096 0
    with
  | .ok (_, p, m) => (p, m)
  | .error _ => (c4wPool, fun _ => 0xAA)

theorem reclaim_failure_reverses_quarantine_witness :
    (c4wOut.1.pagePriv 4096).reclaimFlag = false ∧
    c4wOut.1.size = c4wPool.size ∧
    4096 ∈ c4wOut.1.free_lists 0 := by
  have h := reclaim_failure_reverses_quarantine c4wPool (fun _ => 0xAA)
    (fun _ => false) 4096 0 c4wOut.1 c4wOut.2 (by decide) rfl
  exact ⟨h.1, h.2.2.2.2.2, h.2.2.2.1 4096 (by decide)⟩

/-! ### Invariant preservation machinery -/

lemma mem_rotateLeft {x : ℕ} {l : List ℕ} : x ∈ rotateLeft l ↔ x ∈ l := by
  cases l with
  | nil => simp [rotateLeft]
  | cons a as => simp [rotateLeft, or_comm]

lemma mem_of_getLast?_eq {l : List ℕ} {a : ℕ} (h : l.getLast? = some a) :
    a ∈ l := by
  obtain ⟨hne, heq⟩ := List.mem_getLast?_eq_getLast (Option.mem_def.mpr h)
  rw [heq]
  exact List.getLast_mem hne

lemma pageChunks_nonempty (b tier : ℕ) : (pageChunks b tier).Nonempty := by
  refine ⟨b, mem_pageChunks.mpr ⟨0, ?_, by simp⟩⟩
  rcases TIER_SIZES_cases tier with h | h | h <;> rw [h] <;> decide

lemma select_found_spec {pool : ZtierPool} {ct : ℕ} {cp : Option ℕ} {page : ℕ}
    {pool1 : ZtierPool}
    (h : ztier_reclaim_select_page pool ct cp = .found page pool1) :
    page ∈ pool.used_pages ct ∧
    pool1.free_lists = pool.free_lists ∧
    pool1.under_reclaim = pool.under_reclaim ∧
    pool1.pagePriv = pool.pagePriv ∧ pool1.size = pool.size ∧
    pool1.hasEvict = pool.hasEvict ∧
    (∀ t x, x ∈ pool1.used_pages t ↔ x ∈ pool.used_pages t) := by
  unfold ztier_reclaim_select_page at h
  split_ifs at h with hct
  split at h
  · simp at h
  · rename_i chosen hlast
    split_ifs at h with hflag hcp
    simp only [SelectOut.found.injEq] at h
    obtain ⟨hpg, hpl⟩ := h
    subst hpg
    subst hpl
    refine ⟨mem_of_getLast?_eq hlast, rfl, rfl, rfl, rfl, rfl, ?_⟩
    intro t x
    by_cases ht : t = ct
    · subst ht
      simp only [Function.update_same]
      exact mem_rotateLeft
    · simp only [Function.update_noteq ht]

lemma ztier_alloc_ne_ok_spec {pool : ZtierPool} {mem : Mem} {size : ℕ}
    {g : Bool} {pa : Option ℕ} {res : AllocRes} {p2 : ZtierPool} {m2 : Mem}
    (heq : ztier_alloc pool mem size g pa = (res, p2, m2))
    (hne : ∀ h, res ≠ .ok h) : p2 = pool := by
  unfold ztier_alloc at heq
  split_ifs at heq with h1 h2 h3
  · simp only [Prod.mk.injEq] at heq
    exact heq.2.1.symm
  · simp only [Prod.mk.injEq] at heq
    exact heq.2.1.symm
  · simp only [Prod.mk.injEq] at heq
    exact absurd heq.1.symm (hne _)
  · split at heq
    · simp only [Prod.mk.injEq] at heq
      exact heq.2.1.symm
    · rename_i b
      split at heq
      · simp only [Prod.mk.injEq] at heq
        exact heq.2.1.symm
      · rename_i pool1 mem1 hinit
        split at heq
        · simp only [Prod.mk.injEq] at heq
          exact absurd heq.1.symm (hne _)
        · rename_i hne2
          exfalso
          apply hne2
          unfold ztier_init_page at hinit
          split_ifs at hinit
          simp only [Except.ok.injEq, Prod.mk.injEq] at hinit
          obtain ⟨hp1, -⟩ := hinit
          rw [← hp1]
          simp only [Function.update_same]
          obtain ⟨y, hy⟩ := pageChunks_nonempty b (chooseTier size)
          exact ⟨y, Finset.mem_union_right _ hy⟩

/-- `ztier_free` preserves the structural invariant. -/
lemma inv_free {p p2 : ZtierPool} {mem mem2 : Mem} {h : ℕ}
    (hinv : ZtierInv p) (hok : ztier_free p mem h = .ok (p2, mem2)) :
    ZtierInv p2 := by
  obtain ⟨ha, hb, hc⟩ := hinv
  obtain ⟨-, -, hup, hpv, -, -, -, -, hr1, hr0⟩ := ztier_free_ok_spec hok
  by_cases hflag : (p.pagePriv (pageBase h)).reclaimFlag = true
  · obtain ⟨-, hunder, hfl⟩ := hr1 hflag
    refine ⟨?_, ?_, ?_⟩
    · intro t x hx
      rw [hfl] at hx
      rw [hpv]
      exact ha t x hx
    · intro x hx
      rw [hunder] at hx
      rw [hpv]
      rcases Finset.mem_insert.mp hx with rfl | hx2
      · exact hflag
      · exact hb x hx2
    · intro t q hq
      rw [hup] at hq
      exact hc t q hq
  · have hflag2 : (p.pagePriv (pageBase h)).reclaimFlag = false := by
      simpa using hflag
    obtain ⟨-, hunder, hfl⟩ := hr0 hflag2
    refine ⟨?_, ?_, ?_⟩
    · intro t x hx
      rw [hfl] at hx
      rw [hpv]
      by_cases ht : t = (p.pagePriv (pageBase h)).tier
      · subst ht
        rw [Function.update_same] at hx
        rcases Finset.mem_insert.mp hx with rfl | hx2
        · exact ⟨rfl, hflag2⟩
        · exact ha _ x hx2
      · rw [Function.update_noteq ht] at hx
        exact ha t x hx
    · intro x hx
      rw [hunder] at hx
      rw [hpv]
      exact hb x hx
    · intro t q hq
      rw [hup] at hq
      exact hc t q hq

/-- `ztier_alloc` preserves the structural invariant, given the
page-frame-allocator freshness contract for a grown page. -/
lemma inv_alloc {p : ZtierPool} {mem : Mem} {size : ℕ} {g : Bool}
    {pa : Option ℕ} (hinv : ZtierInv p)
    (hfresh : ∀ b, pa = some b → b % PAGE_SIZE = 0 ∧ b ≠ 0 ∧
      ∀ x, pageBase x = b → (∀ t, x ∉ p.free_lists t) ∧ x ∉ p.under_reclaim) :
    ZtierInv (ztier_alloc p mem size g pa).2.1 := by
  obtain ⟨ha, hb, hc⟩ := hinv
  set q := ztier_alloc p mem size g pa with hq
  cases hres : q.1 with
  | einval =>
    have heq : ztier_alloc p mem size g pa = (.einval, q.2.1, q.2.2) := by
      rw [← hq, ← hres]
    rw [ztier_alloc_ne_ok_spec heq (fun h => by intro hcon; cases hcon)]
    exact ⟨ha, hb, hc⟩
  | enospc =>
    have heq : ztier_alloc p mem size g pa = (.enospc, q.2.1, q.2.2) := by
      rw [← hq, ← hres]
    rw [ztier_alloc_ne_ok_spec heq (fun h => by intro hcon; cases hcon)]
    exact ⟨ha, hb, hc⟩
  | enomem =>
    have heq : ztier_alloc p mem size g pa = (.enomem, q.2.1, q.2.2) := by
      rw [← hq, ← hres]
    rw [ztier_alloc_ne_ok_spec heq (fun h => by intro hcon; cases hcon)]
    exact ⟨ha, hb, hc⟩
  | bug =>
    have heq : ztier_alloc p mem size g pa = (.bug, q.2.1, q.2.2) := by
      rw [← hq, ← hres]
    rw [ztier_alloc_ne_ok_spec heq (fun h => by intro hcon; cases hcon)]
    exact ⟨ha, hb, hc⟩
  | ok h =>
    have heq : ztier_alloc p mem size g pa = (.ok h, q.2.1, q.2.2) := by
      rw [← hq, ← hres]
    obtain ⟨-, -, -, hcase⟩ := ztier_alloc_ok_spec heq
    rcases hcase with ⟨hne, hh, hfl, hup, hur, hpv, -, -⟩ |
      ⟨b, hpab, hfree, -, -, -, hfl, hup, hur, hpv, -, -⟩
    · refine ⟨?_, ?_, ?_⟩
      · intro t x hx
        rw [hfl] at hx
        rw [hpv]
        by_cases ht : t = chooseTier size
        · subst ht
          rw [Function.update_same] at hx
          exact ha _ x (Finset.mem_of_mem_erase hx)
        · rw [Function.update_noteq ht] at hx
          exact ha t x hx
      · intro x hx
        rw [hur] at hx
        rw [hpv]
        exact hb x hx
      · intro t q2 hq2
        rw [hup] at hq2
        exact hc t q2 hq2
    · obtain ⟨hbal, hb0, hfr⟩ := hfresh b hpab
      refine ⟨?_, ?_, ?_⟩
      · intro t x hx
        rw [hfl] at hx
        rw [hpv]
        by_cases ht : t = chooseTier size
        · subst ht
          rw [Function.update_same] at hx
          have hx2 := Finset.mem_of_mem_erase hx
          rw [Finset.mem_union] at hx2
          rcases hx2 with hx2 | hx2
          · have hxb : pageBase x ≠ b := fun hcon => (hfr x hcon).1 _ hx2
            rw [Function.update_noteq hxb]
            exact ha _ x hx2
          · rw [pageChunks_base hbal hx2, Function.update_same]
            exact ⟨rfl, rfl⟩
        · rw [Function.update_noteq ht] at hx
          have hxb : pageBase x ≠ b := fun hcon => (hfr x hcon).1 _ hx
          rw [Function.update_noteq hxb]
          exact ha t x hx
      · intro x hx
        rw [hur] at hx
        rw [hpv]
        have hxb : pageBase x ≠ b := fun hcon => (hfr x hcon).2 hx
        rw [Function.update_noteq hxb]
        exact hb x hx
      · intro t q2 hq2
        rw [hup] at hq2
        by_cases ht : t = chooseTier size
        · subst ht
          rw [Function.update_same] at hq2
          rcases List.mem_cons.mp hq2 with rfl | hq3
          · exact ⟨hbal, hb0⟩
          · exact hc _ q2 hq3
        · rw [Function.update_noteq ht] at hq2
          exact hc t q2 hq2

/-- State after a successful reclaim attempt
(`ztier_reclaim_attempt = .ok (true, ..)`): the page's chunks are gone from
every set, its metadata is poisoned, the page is off every list, and the
pool shrank by one page. -/
lemma attempt_succ_spec {pool : ZtierPool} {mem : Mem} {oracle : ℕ → Bool}
    {page ct : ℕ} {p2 : ZtierPool} {m2 : Mem}
    (halign : page % PAGE_SIZE = 0)
    (hok : ztier_reclaim_attempt pool mem oracle page ct =
      .ok (true, p2, m2)) :
    page ≠ 0 ∧
    p2.pagePriv = Function.update pool.pagePriv page PRIV_POISON ∧
    (∀ x ∈ p2.under_reclaim,
       x ∈ pool.under_reclaim ∧ ¬(page ≤ x ∧ x < page + PAGE_SIZE)) ∧
    p2.free_lists (pool.pagePriv page).tier =
      (pool.free_lists (pool.pagePriv page).tier).filter
        (fun x => ¬(page ≤ x ∧ x < page + PAGE_SIZE)) ∧
    (∀ t, t ≠ (pool.pagePriv page).tier →
       p2.free_lists t = pool.free_lists t) ∧
    (∀ t, p2.used_pages t = (pool.used_pages t).erase page) ∧
    p2.size + PAGE_SIZE = pool.size ∧ p2.hasEvict = pool.hasEvict := by
  unfold ztier_reclaim_attempt at hok
  by_cases hflag0 : (pool.pagePriv page).reclaimFlag = true
  · rw [if_pos hflag0] at hok
    simp at hok
  · rw [if_neg hflag0] at hok
    by_cases htier0 : NUM_TIERS ≤ (pool.pagePriv page).tier
    · rw [if_pos htier0] at hok
      simp at hok
    · rw [if_neg htier0] at hok
      split at hok
      · simp at hok
      · rename_i pool2 hq
        split at hok
        · simp at hok
        · rename_i pool3 mem3 hev
          split at hok
          · simp at hok
          · rename_i pool4 mem4 hrc
            simp only [Except.ok.injEq, Prod.mk.injEq, true_and] at hok
            obtain ⟨hp4, hm4⟩ := hok
            subst hp4
            have hq' := under_reclaim_ok_spec hq
            simp only [Function.update_same] at hq'
            obtain ⟨-, hqpg, -, hqf, hqu, hqup, hqpv, hqsz, hqhe⟩ := hq'
            have hflag2 : (pool2.pagePriv page).reclaimFlag = true := by
              rw [hqpv]
              simp [Function.update_same]
            have htier2 : (pool2.pagePriv page).tier =
                (pool.pagePriv page).tier := by
              rw [hqpv]
              simp [Function.update_same]
            obtain ⟨-, -, -, hgo⟩ := attempt_evict_ok_spec hev
            rw [htier2] at hgo
            obtain ⟨g1, g2, g3, g4, g5, g6, g7⟩ :=
              evict_go_spec oracle page (pool.pagePriv page).tier
                (chunkIdxs (pool.pagePriv page).tier) pool2 mem pool3 mem3
                hflag2 halign (fun i hi => chunkIdx_mul_lt hi) hgo
            obtain ⟨-, -, -, hrP, hru, hrpv, hrf, hrup, hrsz, hrhe⟩ :=
              reclaimed_true_spec hrc
            refine ⟨hqpg, ?_, ?_, ?_, ?_, ?_, ?_, ?_⟩
            · rw [hrpv, g3, hqpv, Function.update_idem]
            · intro x hx
              rw [hru, Finset.mem_filter] at hx
              obtain ⟨hx3, hxr⟩ := hx
              rcases g7 x hx3 with hx2 | hx2
              · rw [hqu, Finset.mem_union] at hx2
                rcases hx2 with hx2 | hx2
                · exact ⟨hx2, hxr⟩
                · rw [Finset.mem_filter] at hx2
                  exact absurd hx2.2 hxr
              · exact absurd hx2 hxr
            · rw [hrf, g1, hqf, Function.update_same]
            · intro t ht
              rw [hrf, g1, hqf, Function.update_noteq ht]
            · intro t
              rw [hrup, g2, hqup]
            · have hsz3 : PAGE_SIZE ≤ pool.size := by
                rw [← hqsz, ← g4]
                exact hrP
              rw [hrsz, g4, hqsz]
              omega
            · rw [hrhe, g5, hqhe]
          · rename_i pool4 mem4 hrc
            split_ifs at hok with hctne
            split at hok
            · simp at hok
            · simp at hok

/-- A failed reclaim attempt preserves the structural invariant. -/
lemma inv_attempt_false {pool : ZtierPool} {mem : Mem} {oracle : ℕ → Bool}
    {page ct : ℕ} {p2 : ZtierPool} {m2 : Mem}
    (hinv : ZtierInv pool) (halign : page % PAGE_SIZE = 0)
    (hok : ztier_reclaim_attempt pool mem oracle page ct =
      .ok (false, p2, m2)) : ZtierInv p2 := by
  obtain ⟨ha, hb, hc⟩ := hinv
  obtain ⟨-, -, hpg0, h4, h5, -, -, h8, h9, h10, -, -, h13, h14⟩ :=
    attempt_fail_spec halign hok
  refine ⟨?_, ?_, ?_⟩
  · intro t x hx
    by_cases ht : t = (pool.pagePriv page).tier
    · subst ht
      rcases h13 x hx with hx2 | hx2
      · by_cases hxb : pageBase x = page
        · rw [hxb, h4]
          exact ⟨rfl, rfl⟩
        · rw [h5 _ hxb]
          exact ha _ x hx2
      · have hxb : pageBase x = page :=
          pageBase_eq_of_range halign hx2.1 hx2.2
        rw [hxb, h4]
        exact ⟨rfl, rfl⟩
    · rw [h14 t ht] at hx
      have hxb : pageBase x ≠ page := by
        intro hcon
        have htag := (ha t x hx).1
        rw [hcon] at htag
        exact ht htag.symm
      rw [h5 _ hxb]
      exact ha t x hx
  · intro x hx
    obtain ⟨hx2, hxr⟩ := h10 x hx
    have hxb : pageBase x ≠ page := by
      intro hcon
      exact hxr (range_of_pageBase_eq hcon)
    rw [h5 _ hxb]
    exact hb x hx2
  · intro t q hq
    by_cases ht : t = (pool.pagePriv page).tier
    · subst ht
      rw [h8] at hq
      rcases List.mem_cons.mp hq with rfl | hq2
      · exact ⟨halign, hpg0⟩
      · exact hc _ q (List.mem_of_mem_erase hq2)
    · rw [h9 t ht] at hq
      exact hc t q (List.mem_of_mem_erase hq)

/-- A successful reclaim attempt preserves the structural invariant. -/
lemma inv_attempt_true {pool : ZtierPool} {mem : Mem} {oracle : ℕ → Bool}
    {page ct : ℕ} {p2 : ZtierPool} {m2 : Mem}
    (hinv : ZtierInv pool) (halign : page % PAGE_SIZE = 0)
    (hok : ztier_reclaim_attempt pool mem oracle page ct =
      .ok (true, p2, m2)) : ZtierInv p2 := by
  obtain ⟨ha, hb, hc⟩ := hinv
  obtain ⟨-, h2, h3, h4, h5, h6, -, -⟩ := attempt_succ_spec halign hok
  refine ⟨?_, ?_, ?_⟩
  · intro t x hx
    rw [h2]
    by_cases ht : t = (pool.pagePriv page).tier
    · subst ht
      rw [h4, Finset.mem_filter] at hx
      obtain ⟨hx2, hxr⟩ := hx
      have hxb : pageBase x ≠ page := by
        intro hcon
        exact hxr (range_of_pageBase_eq hcon)
      rw [Function.update_noteq hxb]
      exact ha _ x hx2
    · rw [h5 t ht] at hx
      have hxb : pageBase x ≠ page := by
        intro hcon
        have htag := (ha t x hx).1
        rw [hcon] at htag
        exact ht htag.symm
      rw [Function.update_noteq hxb]
      exact ha t x hx
  · intro x hx
    rw [h2]
    obtain ⟨hx2, hxr⟩ := h3 x hx
    have hxb : pageBase x ≠ page := by
      intro hcon
      exact hxr (range_of_pageBase_eq hcon)
    rw [Function.update_noteq hxb]
    exact hb x hx2
  · intro t q hq
    rw [h6 t] at hq
    exact hc t q (List.mem_of_mem_erase hq)

/-- The retry loop of `ztier_reclaim_page` preserves the structural
invariant. -/
lemma inv_reclaim_loop (oracle : ℕ → Bool) :
    ∀ (fuel ct : ℕ) (cp : Option ℕ) (pool : ZtierPool) (mem : Mem)
      (res : RecRes) (p2 : ZtierPool) (m2 : Mem), ZtierInv pool →
      ztier_reclaim_loop oracle fuel ct cp pool mem = .ok (res, p2, m2) →
      ZtierInv p2 := by
  intro fuel
  induction fuel with
  | zero =>
    intro ct cp pool mem res p2 m2 hinv h
    simp only [ztier_reclaim_loop, Except.ok.injEq, Prod.mk.injEq] at h
    obtain ⟨-, hp, -⟩ := h
    exact hp ▸ hinv
  | succ r ih =>
    intro ct cp pool mem res p2 m2 hinv h
    rw [ztier_reclaim_loop] at h
    split_ifs at h with hct
    split at h
    · simp at h
    · simp only [Except.ok.injEq, Prod.mk.injEq] at h
      obtain ⟨-, hp, -⟩ := h
      exact hp ▸ hinv
    · rename_i page pool1 hsel
      obtain ⟨hpg, hsf, hsu, hspv, -, -, hsused⟩ := select_found_spec hsel
      have hinv1 : ZtierInv pool1 := by
        obtain ⟨ha, hb, hc⟩ := hinv
        refine ⟨?_, ?_, ?_⟩
        · intro t x hx
          rw [hsf] at hx
          rw [hspv]
          exact ha t x hx
        · intro x hx
          rw [hsu] at hx
          rw [hspv]
          exact hb x hx
        · intro t q hq
          exact hc t q ((hsused t q).mp hq)
      have halign : page % PAGE_SIZE = 0 := (hinv.2.2 ct page hpg).1
      have halign1 : page % PAGE_SIZE = 0 := halign
      split at h
      · simp at h
      · rename_i pool2 mem2 hat
        simp only [Except.ok.injEq, Prod.mk.injEq] at h
        obtain ⟨-, hp, -⟩ := h
        exact hp ▸ inv_attempt_true hinv1 halign1 hat
      · rename_i pool2 mem2 hat
        exact ih ct (some page) pool2 mem2 res p2 m2
          (inv_attempt_false hinv1 halign1 hat) h

/-- `ztier_reclaim_page` preserves the structural invariant. -/
lemma inv_reclaim {pool : ZtierPool} {mem : Mem} {oracle : ℕ → Bool}
    {retries : ℕ} {res : RecRes} {p2 : ZtierPool} {m2 : Mem}
    (hinv : ZtierInv pool)
    (hok : ztier_reclaim_page pool mem oracle retries = .ok (res, p2, m2)) :
    ZtierInv p2 := by
  unfold ztier_reclaim_page at hok
  split_ifs at hok with hpre
  · simp only [Except.ok.injEq, Prod.mk.injEq] at hok
    obtain ⟨-, hp, -⟩ := hok
    exact hp ▸ hinv
  · exact inv_reclaim_loop oracle retries 0 none pool mem res p2 m2 hinv hok

/-- Every reachable pool state satisfies the structural invariant. -/
lemma reachable_inv {p : ZtierPool} (h : Reachable p) : ZtierInv p := by
  induction h with
  | create ops =>
    exact ⟨fun t x hx => absurd hx (Finset.not_mem_empty x),
      fun x hx => absurd hx (Finset.not_mem_empty x),
      fun t q hq => absurd hq (List.not_mem_nil q)⟩
  | alloc p mem size g pa hp hfresh ih => exact inv_alloc ih hfresh
  | free p p2 mem mem2 hh hp hok ih => exact inv_free ih hok
  | reclaim p p2 mem mem2 oracle retries res hp hok ih => exact inv_reclaim ih hok

/-- C2: a successful `alloc(P, size)` carves from the tightest-fitting
class: the class tag of the handle's host page satisfies
`CLASS_SIZE[c] ≥ size`, and either `c` is the smallest class (`C - 1`) or
the next smaller class is strictly too small.  The hypotheses are spec
invariant 1 (free-list chunks lie in pages tagged with that tier) and the
page-frame-allocator contract (pages are 4096-aligned). -/
theorem alloc_tightest_fit (pool : ZtierPool) (mem : Mem) (size : ℕ) (g : Bool)
    (pa : Option ℕ) (h : ℕ) (p2 : ZtierPool) (m2 : Mem)
    (hinv : ∀ t, ∀ x ∈ pool.free_lists t, (pool.pagePriv (pageBase x)).tier = t)
    (halign : ∀ b, pa = some b → b % PAGE_SIZE = 0)
    (hok : ztier_alloc pool mem size g pa = (.ok h, p2, m2)) :
    size ≤ TIER_SIZES (p2.pagePriv (pageBase h)).tier ∧
    ((p2.pagePriv (pageBase h)).tier = NUM_TIERS - 1 ∨
      TIER_SIZES ((p2.pagePriv (pageBase h)).tier + 1) < size) := by
  obtain ⟨h0, hg, hle, hcase⟩ := ztier_alloc_ok_spec hok
  have htight := chooseTier_tight (Nat.pos_of_ne_zero h0) hle
  have htier_eq : (p2.pagePriv (pageBase h)).tier = chooseTier size := by
    rcases hcase with ⟨hne, hh, hfl, hup, hur, hpv, hsz, hhe⟩ |
      ⟨b, hpab, hfree, hb0, hpoison, hmemc, hfl, hup, hur, hpv, hsz, hhe⟩
    · rw [hpv]
      exact hinv _ _ (hh ▸ (pool.free_lists (chooseTier size)).min'_mem hne)
    · rw [hpv]
      have hbase : pageBase h = b := pageChunks_base (halign b hpab) hmemc
      rw [hbase, Function.update_same]
  rw [htier_eq]
  exact htight

/-- Concrete pool witnessing C2: one class-2 page at `4096` with a single
free chunk. -/
def c2wPool : ZtierPool :=
  { free_lists := fun t => if t = 2 then {4096} else ∅
    used_pages := fun t => if t = 2 then [4096] else []
    under_reclaim := ∅
    size := 4096
    hasEvict := true
    pagePriv := fun p => if p = 4096 then ⟨2, false⟩ else PRIV_POISON }

def c2wOut : ZtierPool × Mem :=
  match ztier_alloc c2wPool (fun _ => 0) 100 false none with
  | (.ok _, p, m) => (p, m)
  | _ => (c2wPool, fun _ => 0)

theorem alloc_tightest_fit_witness :
    100 ≤ TIER_SIZES ((c2wOut.1.pagePriv (pageBase 4096)).tier) ∧
    ((c2wOut.1.pagePriv (pageBase 4096)).tier = NUM_TIERS - 1 ∨
      TIER_SIZES ((c2wOut.1.pagePriv (pageBase 4096)).tier + 1) < 100) := by
  refine alloc_tightest_fit c2wPool (fun _ => 0) 100 false none 4096 c2wOut.1
    c2wOut.2 ?_ (fun b hb => by simp at hb) rfl
  intro t x hx
  by_cases ht : t = 2
  · subst ht
    simp [c2wPool] at hx
    subst hx
    decide
  · simp [c2wPool, ht] at hx

/-- A pool that is *not* empty: its single class-0 page at `4096` has chunk
`4096` free but chunk `6144` still live (an outstanding handle that was
never returned via `free`). -/
def c9Pool : ZtierPool :=
  { free_lists := fun t => if t = 0 then {4096} else ∅
    used_pages := fun t => if t = 0 then [4096] else []
    under_reclaim := ∅
    size := 4096
    hasEvict := false
    pagePriv := fun p => if p = 4096 then ⟨0, false⟩ else PRIV_POISON }

/-- C9 (counterexample): destroying a pool that is not empty — `c9Pool`
still holds an outstanding live chunk at `6144` — does **not** trigger a
fatal assertion: `ztier_destroy_pool` runs to completion and frees the page
containing the live data.  The only emptiness assertion in the source is
`BUG_ON(rb_first(&pool->under_reclaim))`; outstanding handles are not
checked (the code comments merely *assume* all handles were returned). -/
theorem destroy_nonempty_no_assert :
    ∃ p2, ztier_destroy_pool c9Pool = .ok p2 := ⟨_, rfl⟩

/-- C9 (amended): double free — freeing a handle that is already in the set
selected by its page's reclaim flag — and freeing a handle that is not
aligned to its page's class size are fatal assertions (`BUG`), and
`destroy` asserts that the reclaim set is empty; destroying a pool whose
only violation of the emptiness precondition is an outstanding live handle
is *not* detected (see the counterexample). -/
theorem programmer_errors_assert (pool : ZtierPool) (mem : Mem) (h : ℕ) :
    ((pool.pagePriv (pageBase h)).reclaimFlag = true →
       h ∈ pool.under_reclaim → ztier_free pool mem h = .error .bug) ∧
    ((pool.pagePriv (pageBase h)).reclaimFlag = false →
       h ∈ pool.free_lists (pool.pagePriv (pageBase h)).tier →
       ztier_free pool mem h = .error .bug) ∧
    (h % TIER_SIZES (pool.pagePriv (pageBase h)).tier ≠ 0 →
       ztier_free pool mem h = .error .bug) ∧
    (pool.under_reclaim ≠ ∅ → ztier_destroy_pool pool = .error .bug) := by
  refine ⟨?_, ?_, ?_, ?_⟩
  · intro hflag hmem
    unfold ztier_free
    split_ifs <;> simp_all
  · intro hflag hmem
    unfold ztier_free
    split_ifs <;> simp_all
  · intro hal
    unfold ztier_free
    split_ifs <;> simp_all
  · intro hne
    unfold ztier_destroy_pool
    rw [if_neg hne]

theorem programmer_errors_assert_witness :
    ztier_free c9Pool (fun _ => 0) 4096 = .error .bug ∧
    ztier_free c9Pool (fun _ => 0) 4097 = .error .bug ∧
    ztier_destroy_pool { c9Pool with under_reclaim := {4096} } =
      .error .bug := by
  refine ⟨(programmer_errors_assert c9Pool (fun _ => 0) 4096).2.1 (by decide)
      (by decide),
    (programmer_errors_assert c9Pool (fun _ => 0) 4097).2.2.1 (by decide),
    (programmer_errors_assert { c9Pool with under_reclaim := {4096} }
      (fun _ => 0) 0).2.2.2 (by decide)⟩

/-! ### `ztier_reclaim_page` never produces `-EINVAL` from inside the loop -/

lemma reclaim_loop_ne_einval (oracle : ℕ → Bool) :
    ∀ fuel ct cp pool mem p2 m2,
      ztier_reclaim_loop oracle fuel ct cp pool mem ≠ .ok (.einval, p2, m2) := by
  intro fuel
  induction fuel with
  | zero =>
    intro ct cp pool mem p2 m2 h
    simp [ztier_reclaim_loop] at h
  | succ r ih =>
    intro ct cp pool mem p2 m2 h
    simp only [ztier_reclaim_loop] at h
    split at h
    · simp at h
    · split at h
      · simp at h
      · simp at h
      · split at h
        · simp at h
        · simp at h
        · exact ih _ _ _ _ _ _ h

/-- C6: `reclaim_one(P, retries)` answers `-EINVAL` (NoEvict) exactly when,
at entry, no eviction callback is registered, every class's page list is
empty, or `retries == 0` — and in those cases the pool and memory are
returned unchanged.  No path inside the retry loop can produce `-EINVAL`. -/
theorem reclaim_noevict_iff (pool : ZtierPool) (mem : Mem) (oracle : ℕ → Bool)
    (retries : ℕ) :
    ((¬pool.hasEvict ∨ ztier_all_tiers_empty pool = true ∨ retries = 0) →
       ztier_reclaim_page pool mem oracle retries = .ok (.einval, pool, mem)) ∧
    (∀ p2 m2,
       ztier_reclaim_page pool mem oracle retries = .ok (.einval, p2, m2) →
       (¬pool.hasEvict ∨ ztier_all_tiers_empty pool = true ∨ retries = 0)) := by
  constructor
  · intro h
    unfold ztier_reclaim_page
    rw [if_pos h]
  · intro p2 m2 h
    by_contra hc
    unfold ztier_reclaim_page at h
    rw [if_neg hc] at h
    exact reclaim_loop_ne_einval oracle retries 0 none pool mem p2 m2 h

/-- A pool whose only page is a fully-free class-2 (256-byte) page at
`4096`, with an eviction callback registered. -/
def c3Pool : ZtierPool :=
  { free_lists := fun t => if t = 2 then pageChunks 4096 2 else ∅
    used_pages := fun t => if t = 2 then [4096] else []
    under_reclaim := ∅
    size := 4096
    hasEvict := true
    pagePriv := fun p => if p = 4096 then ⟨2, false⟩ else PRIV_POISON }

/-- C3 (divergence witness): on a pool whose only (fully free) page sits in
the smallest class, `ztier_reclaim_page(pool, 8)` returns `-EAGAIN`
immediately with the pool unchanged and reclaims nothing: the first victim
selection sees the empty tier-0 list, advances `current_tier`, and returns
NULL, which `ztier_reclaim_page` treats as a terminal failure (lines
1167–1171) instead of continuing the walk with the next class as the claim
(and the selection routine's own comment) describes. -/
theorem reclaim_empty_larger_tier_aborts (oracle : ℕ → Bool) :
    ztier_reclaim_page c3Pool (fun _ => 0xAA) oracle 8 =
      .ok (.eagain, c3Pool, fun _ => 0xAA) := rfl

/-- A pool holding exactly one class-0 host page at `4096` whose two chunks
(`4096` and `6144`) are both free; eviction callback registered; chunk
memory carrying the `0xAA` free fill. -/
def c5Pool : ZtierPool :=
  { free_lists := fun t => if t = 0 then {4096, 6144} else ∅
    used_pages := fun t => if t = 0 then [4096] else []
    under_reclaim := ∅
    size := 4096
    hasEvict := true
    pagePriv := fun p => if p = 4096 then ⟨0, false⟩ else PRIV_POISON }

def c5Mem : Mem := fun _ => 0xAA

def c5Out : ZtierPool × Mem :=
  match ztier_reclaim_page c5Pool c5Mem (fun _ => false) 1 with
  | .ok (_, p, m) => (p, m)
  | .error _ => (c5Pool, c5Mem)

/-- C5: on a pool holding exactly one class-0 page all of whose chunks are
free, `reclaim_one` with any positive retry budget succeeds without ever
invoking the eviction callback — the result is the same for *every* oracle,
as the quarantine moves both chunks into the reclaim set and the per-chunk
membership check then skips them — and the page is returned to the
page-frame allocator: afterwards the pool size is `0`, the page list is
empty, the reclaim set is empty, and the page's metadata carries the unowned
poison. -/
theorem reclaim_free_page_no_evict (oracle : ℕ → Bool) (r : ℕ) :
    ztier_reclaim_page c5Pool c5Mem oracle (r + 1) =
      .ok (.ok, c5Out.1, c5Out.2) ∧
    c5Out.1.size = 0 ∧ c5Out.1.used_pages 0 = [] ∧
    c5Out.1.under_reclaim = ∅ ∧ c5Out.1.pagePriv 4096 = PRIV_POISON := by
  refine ⟨rfl, rfl, rfl, by decide, rfl⟩

theorem reclaim_noevict_iff_witness :
    ztier_reclaim_page (ztier_create_pool false) (fun _ => 0) (fun _ => false)
      8 = .ok (.einval, ztier_create_pool false, fun _ => 0) :=
  (reclaim_noevict_iff (ztier_create_pool false) (fun _ => 0) (fun _ => false)
    8).1 (Or.inl (by decide))

/-- C8: in every reachable pool state, the per-class free sets and the
reclaim set are pairwise disjoint (no chunk address appears in two sets),
and `alloc` never returns a handle whose chunk is in `P.reclaim`: `alloc`
takes chunks only from a class free list (or from a freshly carved page
that, by the page-frame-allocator contract, the pool did not own). -/
theorem reachable_disjoint_alloc_not_reclaim (p : ZtierPool)
    (hp : Reachable p) :
    (∀ t1 t2, t1 ≠ t2 → ∀ x ∈ p.free_lists t1, x ∉ p.free_lists t2) ∧
    (∀ t, ∀ x ∈ p.free_lists t, x ∉ p.under_reclaim) ∧
    (∀ (mem : Mem) (size : ℕ) (g : Bool) (pa : Option ℕ) (h : ℕ)
       (p2 : ZtierPool) (m2 : Mem),
       (∀ b, pa = some b → b % PAGE_SIZE = 0 ∧
          ∀ x, pageBase x = b → x ∉ p.under_reclaim) →
       ztier_alloc p mem size g pa = (.ok h, p2, m2) →
       h ∉ p.under_reclaim) := by
  obtain ⟨ha, hb, hc⟩ := reachable_inv hp
  refine ⟨?_, ?_, ?_⟩
  · intro t1 t2 hne x hx1 hx2
    exact hne ((ha t1 x hx1).1.symm.trans (ha t2 x hx2).1)
  · intro t x hx hxu
    have h1 := (ha t x hx).2
    have h2 := hb x hxu
    rw [h1] at h2
    exact Bool.false_ne_true h2
  · intro mem size g pa h p2 m2 hfr hok
    obtain ⟨-, -, -, hcase⟩ := ztier_alloc_ok_spec hok
    rcases hcase with ⟨hne, hh, -⟩ | ⟨b, hpab, -, -, -, hmemc, -⟩
    · intro hcontra
      have hxf : h ∈ p.free_lists (chooseTier size) :=
        hh ▸ Finset.min'_mem _ hne
      have h2 := hb h hcontra
      have h1 := (ha _ h hxf).2
      rw [h1] at h2
      exact Bool.false_ne_true h2
    · obtain ⟨hbal, hfr2⟩ := hfr b hpab
      exact hfr2 h (pageChunks_base hbal hmemc)

def c8wOut : ZtierPool × Mem :=
  match ztier_alloc (ztier_create_pool true) (fun _ => 0) 100 false
    (some 4096) with
  | (.ok _, p, m) => (p, m)
  | _ => (ztier_create_pool true, fun _ => 0)

theorem reachable_disjoint_alloc_not_reclaim_witness :
    (4096 : ℕ) ∉ (ztier_create_pool true).under_reclaim :=
  (reachable_disjoint_alloc_not_reclaim (ztier_create_pool true)
    (Reachable.create true)).2.2 (fun _ => 0) 100 false (some 4096) 4096
    c8wOut.1 c8wOut.2
    (fun b hb => by
      injection hb with hb2
      subst hb2
      exact ⟨by decide, fun x hx => Finset.not_mem_empty x⟩)
    rfl

end Ztier
